import Mathlib

/-!
# Retained size and held objects: a verification development

A shallow embedding of `src/utils.cpp` and
`src/sizes/retained_size_and_held_objects.cpp` of the debugger memory agent,
followed by theorems about the embedded functions.

Conventions of the embedding.

* `jlong` values are `Int`; `jlong` addition wraps to the signed 64-bit range
  (`jlongAdd`).
* The heap of the introspected process is a list of `HeapObject`s in the order
  in which the introspection service enumerates them; a `jobject` is the
  identity (`object`) of one of them.
* Calls to the introspection service can be refused by the service. A
  `jvmtiEnv` value fixes, for every service function, the error code with which
  the service answers; `JVMTI_ERROR_NONE` means that the call is carried out.
* Code of the agent that lives outside these two source files (the tag records
  of `sizes_tags.h`, the traversal callbacks of `sizes_callbacks.h`, the timed
  action base class) is either taken as a parameter or modelled from the
  specification; each such definition says so in its doc comment.
-/

namespace MemoryAgent

/-! ## Error codes and machine integers -/

/-- The `jvmtiError` codes the two source files distinguish, together with the
agent's own two codes; every other native code is `JVMTI_ERROR_OTHER`. -/
inductive jvmtiError where
  | JVMTI_ERROR_NONE
  | JVMTI_ERROR_INVALID_OBJECT
  | JVMTI_ERROR_ILLEGAL_ARGUMENT
  | MEMORY_AGENT_INTERRUPTED_ERROR
  | MEMORY_AGENT_TIMEOUT_ERROR
  | JVMTI_ERROR_OTHER (code : Nat)
  deriving DecidableEq, Repr

open jvmtiError

/-- Embeds `isOk` (utils.cpp, line 89). -/
def isOk (error : jvmtiError) : Bool :=
  decide (error = JVMTI_ERROR_NONE)

/-- Two's complement wrap of an integer to the range of `jlong`. -/
def jlongWrap (x : Int) : Int :=
  (x + 9223372036854775808) % 18446744073709551616 - 9223372036854775808

/-- The `+=` of two `jlong` values. -/
def jlongAdd (a b : Int) : Int :=
  jlongWrap (a + b)

/-- Membership of an integer in the range of `jlong`. -/
def inJlong (x : Int) : Prop :=
  -9223372036854775808 ≤ x ∧ x < 9223372036854775808

instance (x : Int) : Decidable (inJlong x) := by
  unfold inJlong
  infer_instance

/-! ## The heap as the introspection service presents it -/

/-- One heap object: its identity, the tag of its class, its shallow size, its
array length (`-1` when it is not an array) and its tag slot. -/
structure HeapObject where
  object : Nat
  classTag : Int
  size : Int
  length : Int
  tag : Int
  deriving DecidableEq, Repr

/-- The heap, in the enumeration order of the introspection service. -/
abbrev Heap := List HeapObject

/-- The verdicts of the introspection service, one for each service function
the two source files call. -/
structure jvmtiEnv where
  IterateThroughHeap : jvmtiError
  GetObjectsWithTags : jvmtiError
  DeallocateObjects : jvmtiError
  DeallocateTags : jvmtiError
  GetTag : jvmtiError
  SetTag : jvmtiError
  deriving DecidableEq, Repr

/-- A service that carries out every call. -/
def jvmtiEnv.allOk : jvmtiEnv :=
  ⟨JVMTI_ERROR_NONE, JVMTI_ERROR_NONE, JVMTI_ERROR_NONE, JVMTI_ERROR_NONE,
    JVMTI_ERROR_NONE, JVMTI_ERROR_NONE⟩

/-- The value `JVMTI_ITERATION_CONTINUE` of jvmti.h. -/
def JVMTI_ITERATION_CONTINUE : Nat := 1

/-- The value `JVMTI_VISIT_ABORT` of jvmti.h. -/
def JVMTI_VISIT_ABORT : Nat := 32768

/-- The value `JVMTI_HEAP_FILTER_TAGGED` of jvmti.h. -/
def JVMTI_HEAP_FILTER_TAGGED : Nat := 4

/-- The value `JVMTI_HEAP_FILTER_UNTAGGED` of jvmti.h. -/
def JVMTI_HEAP_FILTER_UNTAGGED : Nat := 8

/-- The value `JVMTI_HEAP_FILTER_CLASS_TAGGED` of jvmti.h. -/
def JVMTI_HEAP_FILTER_CLASS_TAGGED : Nat := 16

/-- The value `JVMTI_HEAP_FILTER_CLASS_UNTAGGED` of jvmti.h. -/
def JVMTI_HEAP_FILTER_CLASS_UNTAGGED : Nat := 32

/-- Test of one flag (a power of two) in a flag word. -/
def hasFlag (word flag : Nat) : Bool :=
  decide (word / flag % 2 = 1)

/-- The heap filter of `IterateThroughHeap`: an object is skipped when a flag
of the filter excludes it. -/
def heapFilterExcludes (heapFilter : Nat) (o : HeapObject) : Bool :=
  (hasFlag heapFilter JVMTI_HEAP_FILTER_TAGGED && decide (o.tag ≠ 0))
  || (hasFlag heapFilter JVMTI_HEAP_FILTER_UNTAGGED && decide (o.tag = 0))
  || (hasFlag heapFilter JVMTI_HEAP_FILTER_CLASS_TAGGED && decide (o.classTag ≠ 0))
  || (hasFlag heapFilter JVMTI_HEAP_FILTER_CLASS_UNTAGGED && decide (o.classTag = 0))

/-- The object walk of `IterateThroughHeap`: the callback is invoked on every
object the filter lets through, may rewrite that object's tag slot and its user
data, and stops the walk by returning `JVMTI_VISIT_ABORT`. The callback runs in
a monad `m` so that a callback that dereferences a tag can fail. -/
def iterateObjects {m : Type → Type} [Monad m] {U : Type} (heapFilter : Nat)
    (callback : Int → Int → Int → Int → U → m (Nat × Int × U)) :
    Heap → U → m (Heap × U)
  | [], u => pure ([], u)
  | o :: rest, u =>
    if heapFilterExcludes heapFilter o then
      iterateObjects heapFilter callback rest u >>= fun r => pure (o :: r.1, r.2)
    else
      callback o.classTag o.size o.tag o.length u >>= fun c =>
        if hasFlag c.1 JVMTI_VISIT_ABORT then
          pure ({ o with tag := c.2.1 } :: rest, c.2.2)
        else
          iterateObjects heapFilter callback rest c.2.2 >>= fun r =>
            pure ({ o with tag := c.2.1 } :: r.1, r.2)

/-- The service function `IterateThroughHeap` (class filter `nullptr`): refused
with the service's verdict, or carried out over the whole heap. -/
def IterateThroughHeap {m : Type → Type} [Monad m] {U : Type} (jvmti : jvmtiEnv)
    (heapFilter : Nat) (callback : Int → Int → Int → Int → U → m (Nat × Int × U))
    (heap : Heap) (u : U) : m (jvmtiError × Heap × U) :=
  if isOk jvmti.IterateThroughHeap then
    iterateObjects heapFilter callback heap u >>= fun r =>
      pure (JVMTI_ERROR_NONE, r.1, r.2)
  else
    pure (jvmti.IterateThroughHeap, heap, u)

/-- The service function `GetObjectsWithTags`: the objects whose tag is one of
the requested values, with their tags; a zero among the requested values is an
illegal argument. -/
def GetObjectsWithTags (jvmti : jvmtiEnv) (heap : Heap) (tags : List Int) :
    jvmtiError × List (Nat × Int) :=
  if isOk jvmti.GetObjectsWithTags then
    if (0 : Int) ∈ tags then (JVMTI_ERROR_ILLEGAL_ARGUMENT, [])
    else (JVMTI_ERROR_NONE,
      (heap.filter (fun o => decide (o.tag ∈ tags))).map (fun o => (o.object, o.tag)))
  else (jvmti.GetObjectsWithTags, [])

/-- The service function `GetTag` on a live object. -/
def GetTag (jvmti : jvmtiEnv) (heap : Heap) (object : Nat) : jvmtiError × Int :=
  if isOk jvmti.GetTag then
    match heap.find? (fun o => decide (o.object = object)) with
    | some o => (JVMTI_ERROR_NONE, o.tag)
    | none => (JVMTI_ERROR_INVALID_OBJECT, 0)
  else (jvmti.GetTag, 0)

/-- Overwrites the tag slot of the object with the given identity. -/
def writeTag (object : Nat) (tag : Int) : Heap → Heap
  | [] => []
  | o :: rest =>
    if o.object = object then { o with tag := tag } :: rest
    else o :: writeTag object tag rest

/-- The service function `SetTag`: an object that is not live is an invalid
object. -/
def SetTag (jvmti : jvmtiEnv) (heap : Heap) (object : Nat) (tag : Int) :
    jvmtiError × Heap :=
  if isOk jvmti.SetTag then
    if heap.any (fun o => decide (o.object = object)) then
      (JVMTI_ERROR_NONE, writeTag object tag heap)
    else (JVMTI_ERROR_INVALID_OBJECT, heap)
  else (jvmti.SetTag, heap)

/-! ## utils.cpp -/

/-- Embeds `handleError` (utils.cpp, lines 107-122): the lines written to the
error log, without the number and the name of the error. Nothing else is done
with the error; an interrupted operation is not logged. -/
def handleError (err : jvmtiError) (message : String) : List String :=
  if !isOk err && decide (err ≠ MEMORY_AGENT_INTERRUPTED_ERROR) then
    ["ERROR: JVMTI: " ++ message]
  else []

/-- Embeds `freeObjectCallback` (utils.cpp, lines 126-135). The user data is
the pair of the ignored tags and the release callback; the state `S` is what
the release callback acts on. -/
def freeObjectCallback {S : Type} (ignoredTags : List Int)
    (callback : Option (Int → S → S))
    (_classTag _size tagValue _length : Int) (s : S) : Id (Nat × Int × S) :=
  match callback with
  | some release =>
    if tagValue ∉ ignoredTags then (JVMTI_ITERATION_CONTINUE, 0, release tagValue s)
    else (JVMTI_ITERATION_CONTINUE, 0, s)
  | none => (JVMTI_ITERATION_CONTINUE, 0, s)

/-- Embeds `removeTagsFromHeap` (utils.cpp, lines 137-146). -/
def removeTagsFromHeap {S : Type} (jvmti : jvmtiEnv) (heap : Heap)
    (ignoredTags : List Int) (callback : Option (Int → S → S)) (s : S) :
    jvmtiError × Heap × S :=
  Id.run (IterateThroughHeap jvmti JVMTI_HEAP_FILTER_UNTAGGED
    (freeObjectCallback ignoredTags callback) heap s)

/-- Embeds `collectObjectsByTags` (utils.cpp, lines 148-156). -/
def collectObjectsByTags (jvmti : jvmtiEnv) (heap : Heap) (tags : List Int) :
    jvmtiError × List (Nat × Int) :=
  GetObjectsWithTags jvmti heap tags

/-- Embeds `deallocateArrays` (utils.cpp, lines 158-165). -/
def deallocateArrays (jvmti : jvmtiEnv) : jvmtiError :=
  if isOk jvmti.DeallocateObjects then jvmti.DeallocateTags
  else jvmti.DeallocateObjects

/-- Embeds `getObjectsByTags` with an object vector as result (utils.cpp, lines
167-180): the objects found are appended to `result`. -/
def getObjectsByTags (jvmti : jvmtiEnv) (heap : Heap) (tags : List Int)
    (result : List Nat) : jvmtiError × List Nat :=
  let c := collectObjectsByTags jvmti heap tags
  if !isOk c.1 then (c.1, result)
  else (deallocateArrays jvmti, result ++ c.2.map Prod.fst)

/-- Embeds `getObjectsByTags` with a vector of pairs as result (utils.cpp,
lines 186-199). -/
def getObjectsAndTagsByTags (jvmti : jvmtiEnv) (heap : Heap) (tags : List Int)
    (result : List (Nat × Int)) : jvmtiError × List (Nat × Int) :=
  let c := collectObjectsByTags jvmti heap tags
  if !isOk c.1 then (c.1, result)
  else (deallocateArrays jvmti, result ++ c.2)

/-- The contents of a `std::set<jlong>` built from a range: the distinct values
in increasing order. -/
def toSet (tags : List Int) : List Int :=
  (tags.insertionSort (fun a b => a ≤ b)).dedup

/-- Embeds `cleanHeapAndGetObjectsByTags` (utils.cpp, lines 205-212). The
result of `removeTagsFromHeap` is dropped, as in the source. Returns the error
code, the heap, the state of the release callback, the rewritten `tags` and the
extended `result`. -/
def cleanHeapAndGetObjectsByTags {S : Type} (jvmti : jvmtiEnv) (heap : Heap)
    (tags : List Int) (result : List (Nat × Int))
    (callback : Option (Int → S → S)) (s : S) :
    jvmtiError × Heap × S × List Int × List (Nat × Int) :=
  let uniqueTags := toSet tags
  let r := removeTagsFromHeap jvmti heap uniqueTags callback s
  let g := getObjectsAndTagsByTags jvmti r.2.1 uniqueTags result
  (g.1, r.2.1, r.2.2, uniqueTags, g.2)

/-- Embeds `removeAllTagsFromHeap` (utils.cpp, lines 214-217). -/
def removeAllTagsFromHeap {S : Type} (jvmti : jvmtiEnv) (heap : Heap)
    (callback : Option (Int → S → S)) (s : S) : jvmtiError × Heap × S :=
  removeTagsFromHeap jvmti heap [] callback s


/-! ## Tag records (sizes_tags.h) -/

/-- Modelled from the spec: the state of one retention entry, which
`sizes_tags.h` declares. `createState` takes four flags; the spec names the
first two, `isStart` and `isRetained`. -/
structure TagState where
  isStart : Bool
  isRetained : Bool
  third : Bool
  fourth : Bool
  deriving DecidableEq, Repr

/-- Modelled from the spec: `createState` of `sizes_tags.h`, which packs the
four flags into a state. -/
def createState (isStart isRetained third fourth : Bool) : TagState :=
  ⟨isStart, isRetained, third, fourth⟩

/-- Modelled from the spec: `isRetained` of `sizes_tags.h`, the test of the
retained flag of a state. -/
def isRetained (state : TagState) : Bool :=
  state.isRetained

/-- Modelled from the spec: `TagInfoArray::TagInfo` of `sizes_tags.h`, one
retention entry. -/
structure TagInfo where
  state : TagState
  deriving DecidableEq, Repr

/-- Modelled from the spec: the `Tag` record of `sizes_tags.h`, a shallow
size, a reference count and the ordered sequence of retention entries. -/
structure Tag where
  size : Int
  refCount : Nat
  array : List TagInfo
  deriving DecidableEq, Repr

/-- Modelled from the spec: the address of the static record
`Tag::TagWithNewInfo`, the marker of an object touched by a traversal. -/
def Tag.TagWithNewInfo : Int := 1

/-- Modelled from the spec: the address of the static record
`Tag::HeldObjectTag`, the marker of a held object. -/
def Tag.HeldObjectTag : Int := 2

/-- Modelled from the spec: a marker record carries no retention entry. -/
def Tag.marker : Tag :=
  ⟨0, 0, []⟩

/-- The `reinterpret_cast` of the address of a record to a tag value. -/
def pointerToTag (pointer : Int) : Int :=
  pointer

/-- The `reinterpret_cast` of a tag value to the address of a record. -/
def tagToPointer (tag : Int) : Int :=
  tag

/-- Modelled from the spec: `isTagWithNewInfo` of `sizes_tags.h`, the test for
the marker `Tag::TagWithNewInfo`. -/
def isTagWithNewInfo (tag : Int) : Bool :=
  decide (tag = pointerToTag Tag.TagWithNewInfo)

/-- The memory the engine owns: the allocated `Tag` records by address and the
counter `sizesTagBalance`. -/
structure SizesMemory where
  records : List (Int × Tag)
  sizesTagBalance : Int
  deriving DecidableEq, Repr

/-- The record allocated at an address, if there is one. -/
def lookupRecord (pointer : Int) : List (Int × Tag) → Option Tag
  | [] => none
  | r :: rest => if r.1 = pointer then some r.2 else lookupRecord pointer rest

/-- Reads the record behind a pointer: a marker, an allocated record, or
nothing when the pointer is null or dangling. -/
def SizesMemory.deref (mem : SizesMemory) (pointer : Int) : Option Tag :=
  if pointer = 0 then none
  else if pointer = Tag.TagWithNewInfo ∨ pointer = Tag.HeldObjectTag then some Tag.marker
  else lookupRecord pointer mem.records

/-- An address that is not null, not a marker and not allocated. -/
def SizesMemory.freshAddress (mem : SizesMemory) : Int :=
  (mem.records.foldl (fun a r => max a r.1) Tag.HeldObjectTag) + 1

/-- Modelled from the spec: `Tag::create` of `sizes_tags.h` allocates a record
with reference count 1 and a single entry and increments the balance. Returns
the address of the record and the memory after the allocation. -/
def Tag.create (mem : SizesMemory) (size : Int) (state : TagState) : Int × SizesMemory :=
  (mem.freshAddress,
    { records := (mem.freshAddress, ⟨size, 1, [⟨state⟩]⟩) :: mem.records,
      sizesTagBalance := mem.sizesTagBalance + 1 })

/-- Modelled from the spec: `Tag::unref` of `sizes_tags.h` lowers the reference
count, and frees the record and decrements the balance when the count reaches
zero; a marker is not reference counted. Nothing is returned for a pointer that
is null or dangling. -/
def Tag.unref (mem : SizesMemory) (pointer : Int) : Option SizesMemory :=
  if pointer = 0 then none
  else if pointer = Tag.TagWithNewInfo ∨ pointer = Tag.HeldObjectTag then some mem
  else
    match lookupRecord pointer mem.records with
    | none => none
    | some t =>
      if t.refCount ≤ 1 then
        some { records := mem.records.filter (fun r => decide (r.1 ≠ pointer)),
               sizesTagBalance := mem.sizesTagBalance - 1 }
      else
        some { records := mem.records.map
                 (fun r => if r.1 = pointer then (r.1, { r.2 with refCount := r.2.refCount - 1 })
                           else r),
               sizesTagBalance := mem.sizesTagBalance }

/-- The ways in which the process stops instead of returning. -/
inductive Fault where
  | invalidTagPointer
  | memoryLeakFound
  | uninitializedRead
  deriving DecidableEq, Repr

/-! ## sizes/retained_size_and_held_objects.cpp -/

/-- The loop of `countSizeAndRetagHeldObjects` (lines 15-21) over the entries
of a record: the pair of the tag slot and the running total. -/
def countEntries (size : Int) (array : List TagInfo) (slot total : Int) : Int × Int :=
  array.foldl
    (fun acc info =>
      if isRetained info.state then (pointerToTag Tag.HeldObjectTag, jlongAdd acc.2 size)
      else acc)
    (slot, total)

/-- Embeds `countSizeAndRetagHeldObjects` (lines 8-25). The user data is the
running total `retainedSize`; the engine's memory is threaded along with it. -/
def countSizeAndRetagHeldObjects (_classTag size tagValue _length : Int)
    (u : SizesMemory × Int) : Except Fault (Nat × Int × (SizesMemory × Int)) :=
  if tagValue = 0 then .ok (JVMTI_ITERATION_CONTINUE, tagValue, u)
  else
    match u.1.deref (tagToPointer tagValue) with
    | none => .error Fault.invalidTagPointer
    | some tag =>
      let r := countEntries size tag.array 0 u.2
      match Tag.unref u.1 (tagToPointer tagValue) with
      | none => .error Fault.invalidTagPointer
      | some mem => .ok (JVMTI_ITERATION_CONTINUE, r.1, (mem, r.2))

/-- The calls to the introspection service an action makes, in order. -/
inductive Event where
  | SetTag (object : Nat) (tag : Int)
  | GetTag (object : Nat)
  | FollowReferences (message : String)
  | IterateThroughHeap (message : String)
  | GetObjectsWithTags (tags : List Int)
  deriving DecidableEq, Repr

/-- The state an action works on: the heap, the engine's memory and the log of
service calls. -/
structure World where
  heap : Heap
  memory : SizesMemory
  log : List Event
  deriving DecidableEq, Repr

/-- The members of the action object that the source file uses and that are
declared outside it: the service, the deadline, the clock reading at each of
the deadline checks (numbered in program order), the two reference traversals
with the callbacks of `sizes_callbacks.h`, and `walkHeapFromObjects`. -/
structure TimedAction where
  jvmti : jvmtiEnv
  finishTime : Nat
  clock : Nat → Nat
  getTagsWithNewInfo : World → jvmtiError × World
  visitReference : World → jvmtiError × World
  walkHeapFromObjects : List (Nat × Int) → World → jvmtiError × World

/-- Modelled from the spec: `shouldStopExecution` of the timed action, true
when the deadline lies before the clock reading of the check. -/
def shouldStopExecution (act : TimedAction) (check : Nat) : Bool :=
  decide (act.finishTime < act.clock check)

/-- The member `FollowReferences` of the action: the traversal runs after the
call is logged. -/
def FollowReferences (traversal : World → jvmtiError × World) (message : String)
    (w : World) : jvmtiError × World :=
  traversal { w with log := w.log ++ [Event.FollowReferences message] }

/-- Embeds `retagStartObject` (lines 31-42). -/
def retagStartObject (act : TimedAction) (w : World) (object : Nat) : jvmtiError × World :=
  let g := GetTag act.jvmti w.heap object
  let w1 : World := { w with log := w.log ++ [Event.GetTag object] }
  if !isOk g.1 then (g.1, w1)
  else if isTagWithNewInfo g.2 then
    let c := Tag.create w1.memory 0 (createState true true false false)
    let s := SetTag act.jvmti w1.heap object (pointerToTag c.1)
    (s.1, { heap := s.2, memory := c.2,
            log := w1.log ++ [Event.SetTag object (pointerToTag c.1)] })
  else (g.1, w1)

/-- Embeds `tagHeap` (lines 44-64). -/
def tagHeap (act : TimedAction) (w : World) (object : Nat) : jvmtiError × World :=
  let r1 := FollowReferences act.getTagsWithNewInfo "find objects with new info" w
  if !isOk r1.1 then r1
  else if shouldStopExecution act 1 then (MEMORY_AGENT_TIMEOUT_ERROR, r1.2)
  else
    let g := getObjectsAndTagsByTags act.jvmti r1.2.heap [pointerToTag Tag.TagWithNewInfo] []
    let w2 : World :=
      { r1.2 with log := r1.2.log
          ++ [Event.GetObjectsWithTags [pointerToTag Tag.TagWithNewInfo]] }
    if !isOk g.1 then (g.1, w2)
    else if shouldStopExecution act 2 then (MEMORY_AGENT_TIMEOUT_ERROR, w2)
    else
      let r3 := retagStartObject act w2 object
      if !isOk r3.1 then r3
      else if shouldStopExecution act 3 then (MEMORY_AGENT_TIMEOUT_ERROR, r3.2)
      else
        let r4 := FollowReferences act.visitReference "getTag heap" r3.2
        if !isOk r4.1 then r4
        else if shouldStopExecution act 4 then (MEMORY_AGENT_TIMEOUT_ERROR, r4.2)
        else act.walkHeapFromObjects g.2 r4.2

/-- Embeds `estimateObjectSize` (lines 66-88). `retainedSize` and `heldObjects`
are the reference parameters; their values on return are the last two
components of the result. The member `IterateThroughHeap` of the action is the
service call of the same name. The process stops (`Except.error`) when a tag
value does not point to a record or when `fatal` is called. -/
def estimateObjectSize (act : TimedAction) (w : World) (object : Nat)
    (retainedSize : Int) (heldObjects : List Nat) :
    Except Fault (jvmtiError × World × Int × List Nat) :=
  let c := Tag.create w.memory 0 (createState true true false false)
  let s := SetTag act.jvmti w.heap object (pointerToTag c.1)
  let w1 : World :=
    { heap := s.2, memory := c.2, log := w.log ++ [Event.SetTag object (pointerToTag c.1)] }
  if !isOk s.1 then .ok (s.1, w1, retainedSize, heldObjects)
  else if shouldStopExecution act 0 then
    .ok (MEMORY_AGENT_TIMEOUT_ERROR, w1, retainedSize, heldObjects)
  else
    let t := tagHeap act w1 object
    if !isOk t.1 then .ok (t.1, t.2, retainedSize, heldObjects)
    else if shouldStopExecution act 5 then
      .ok (MEMORY_AGENT_TIMEOUT_ERROR, t.2, retainedSize, heldObjects)
    else
      match IterateThroughHeap act.jvmti JVMTI_HEAP_FILTER_UNTAGGED
          countSizeAndRetagHeldObjects t.2.heap (t.2.memory, 0) with
      | .error f => .error f
      | .ok r =>
        let w3 : World :=
          { heap := r.2.1, memory := r.2.2.1,
            log := t.2.log ++ [Event.IterateThroughHeap "calculate retained size"] }
        if !isOk r.1 then .ok (r.1, w3, r.2.2.2, heldObjects)
        else if shouldStopExecution act 6 then
          .ok (MEMORY_AGENT_TIMEOUT_ERROR, w3, r.2.2.2, heldObjects)
        else if r.2.2.1.sizesTagBalance ≠ 0 then .error Fault.memoryLeakFound
        else
          let g := getObjectsByTags act.jvmti w3.heap [pointerToTag Tag.HeldObjectTag]
            heldObjects
          .ok (g.1,
            { w3 with log := w3.log
                ++ [Event.GetObjectsWithTags [pointerToTag Tag.HeldObjectTag]] },
            r.2.2.2, g.2)

/-- The Java array that `createResultObject` builds: the one-element array of
the retained size and the array of the held objects. -/
structure ResultObject where
  retainedSize : List Int
  heldObjects : List Nat
  deriving DecidableEq, Repr

/-- Embeds `createResultObject` (lines 90-104). The cast of the number of held
objects to `jint` is exact for fewer than 2^31 objects and is not modelled. -/
def createResultObject (retainedSize : Int) (heldObjects : List Nat) : ResultObject :=
  ⟨[retainedSize], heldObjects⟩

/-- Embeds `executeOperation` (lines 106-118). `uninitialized` is the
indeterminate value of the local `retainedSize` before it is assigned. The
result is the returned array (`none` for a null reference), the world and the
lines written to the error log. -/
def executeOperation (act : TimedAction) (w : World) (object : Nat) (uninitialized : Int) :
    Except Fault (Option ResultObject × World × List String) :=
  match estimateObjectSize act w object uninitialized [] with
  | .error f => .error f
  | .ok r =>
    let logged :=
      if !isOk r.1 then handleError r.1 "Could not estimate object size" else []
    .ok (some (createResultObject r.2.2.1 r.2.2.2), r.2.1, logged)

/-- Embeds `cleanHeap` (lines 120-122): the release callback is `nullptr`. -/
def cleanHeap (jvmti : jvmtiEnv) (w : World) : jvmtiError × World :=
  let r := removeAllTagsFromHeap jvmti w.heap (none : Option (Int → Unit → Unit)) ()
  (r.1, { w with heap := r.2.1, log := w.log ++ [Event.IterateThroughHeap "remove tags"] })

/-! ## ThreadSuspender (utils.cpp) -/

/-- The thread-control part of the introspection service. Every call answers
with an error code and, where it has one, a result; the answers of
`GetThreadInfo` and `SuspendThread` inside the loop of the constructor may
depend on the position `i` of the loop, so that repeated calls on one thread
can answer differently. `currentThreadInfo` is the answer of the call on the
current thread (line 287): its error code and, when the call is carried out,
the name it writes to the info record. -/
structure ThreadControl where
  GetAllThreads : jvmtiError × List Nat
  GetCurrentThread : jvmtiError × Nat
  currentThreadInfo : jvmtiError × String
  GetThreadInfo : Nat → Nat → jvmtiError × String
  SuspendThread : Nat → Nat → jvmtiError
  ResumeThread : Nat → jvmtiError

/-- The thread-control calls that change the state of a thread, with their
answers. -/
inductive ThreadCall where
  | SuspendThread (thread : Nat) (answer : jvmtiError)
  | ResumeThread (thread : Nat) (answer : jvmtiError)
  deriving DecidableEq, Repr

/-- The state of a `ThreadSuspender`: the member `suspendedThreads` and the
calls made so far. -/
structure ThreadSuspender where
  suspendedThreads : List Nat
  calls : List ThreadCall
  deriving DecidableEq, Repr

/-- The loop of the constructor (utils.cpp, lines 293-307) from position `i`
on. `currentName` is the name in the info record of the current thread, or
`none` when that record was never written; the `strcmp` of line 302 on a record
that was never written is a read of uninitialized memory, at which the process
may stop or do anything else, and the model stops there. -/
def suspendLoop (jvmti : ThreadControl) (currentName : Option String) :
    Nat → List Nat → ThreadSuspender → Except Fault ThreadSuspender
  | _, [], st => .ok st
  | i, thread :: rest, st =>
    let info := jvmti.GetThreadInfo i thread
    if !isOk info.1 then .ok st
    else
      match currentName with
      | none => .error Fault.uninitializedRead
      | some current =>
        if info.2 ≠ current then
          let answer := jvmti.SuspendThread i thread
          if answer = JVMTI_ERROR_NONE then
            suspendLoop jvmti currentName (i + 1) rest
              { suspendedThreads := st.suspendedThreads ++ [thread],
                calls := st.calls ++ [ThreadCall.SuspendThread thread answer] }
          else
            suspendLoop jvmti currentName (i + 1) rest
              { st with calls := st.calls ++ [ThreadCall.SuspendThread thread answer] }
        else suspendLoop jvmti currentName (i + 1) rest st

/-- Embeds the constructor `ThreadSuspender::ThreadSuspender` (utils.cpp, lines
270-308). The answer of `GetThreadInfo` on the current thread is not assigned
to `err` (line 287), so the test of line 288 reads the answer of
`GetCurrentThread`, which is known to be ok there, and the constructor goes on
to the loop also when the call on the current thread was refused and the info
record of the current thread was never written. -/
def ThreadSuspender.construct (jvmti : ThreadControl) : Except Fault ThreadSuspender :=
  if !isOk jvmti.GetAllThreads.1 then .ok ⟨[], []⟩
  else if !isOk jvmti.GetCurrentThread.1 then .ok ⟨[], []⟩
  else
    let err := jvmti.GetCurrentThread.1
    let currentName :=
      if isOk jvmti.currentThreadInfo.1 then some jvmti.currentThreadInfo.2 else none
    if !isOk err then .ok ⟨[], []⟩
    else suspendLoop jvmti currentName 0 jvmti.GetAllThreads.2 ⟨[], []⟩

/-- Embeds the destructor `ThreadSuspender::~ThreadSuspender` (utils.cpp, lines
310-317): the calls it makes. -/
def ThreadSuspender.destruct (jvmti : ThreadControl) (st : ThreadSuspender) :
    List ThreadCall :=
  st.suspendedThreads.map (fun thread => ThreadCall.ResumeThread thread (jvmti.ResumeThread thread))

/-- The threads on which a call of `SuspendThread` was made. -/
def suspendAttempts (calls : List ThreadCall) : List Nat :=
  calls.filterMap (fun c =>
    match c with
    | ThreadCall.SuspendThread thread _ => some thread
    | ThreadCall.ResumeThread _ _ => none)

/-- The threads on which a call of `SuspendThread` answered with success. -/
def suspendSuccesses (calls : List ThreadCall) : List Nat :=
  calls.filterMap (fun c =>
    match c with
    | ThreadCall.SuspendThread thread answer =>
      if answer = JVMTI_ERROR_NONE then some thread else none
    | ThreadCall.ResumeThread _ _ => none)

/-- The threads on which a call of `ResumeThread` was made. -/
def resumeCalls (calls : List ThreadCall) : List Nat :=
  calls.filterMap (fun c =>
    match c with
    | ThreadCall.SuspendThread _ _ => none
    | ThreadCall.ResumeThread thread _ => some thread)

/-! ## Definitions used in the statements and proofs -/

/-- The tags released by a purge: the tag of every tagged object, in heap
order, that is not among the ignored tags. -/
def releasedTags (ignoredTags : List Int) (heap : Heap) : List Int :=
  ((heap.filter (fun o => decide (o.tag ≠ 0))).map (fun o => o.tag)).filter
    (fun t => decide (t ∉ ignoredTags))

/-- The heap with every tag slot set to zero. -/
def clearTags (heap : Heap) : Heap :=
  heap.map (fun o => { o with tag := 0 })

/-- The state of a release callback after it was invoked on each tag of a
list, in order. -/
def applyReleases {S : Type} (callback : Option (Int → S → S)) (tags : List Int)
    (s : S) : S :=
  match callback with
  | some release => tags.foldl (fun acc t => release t acc) s
  | none => s

/-- The objects on which a heap walk with the given filter invokes its
callback, as long as no callback stops the walk. -/
def visitedObjects (heapFilter : Nat) (heap : Heap) : Heap :=
  heap.filter (fun o => !heapFilterExcludes heapFilter o)

/-- The number of retained entries of a record. -/
def retainedEntries (array : List TagInfo) : Nat :=
  array.countP (fun info => isRetained info.state)

/-- The records of `cur` are records of `init` with the same entries: what
remains of `init` after some records were released. -/
def RecordsWithin (cur init : List (Int × Tag)) : Prop :=
  ∀ p t, lookupRecord p cur = some t →
    ∃ t0, lookupRecord p init = some t0 ∧ t0.array = t.array

/-- The entries of the record a tag value points to; none for a tag value that
points to no record. -/
def entriesOf (mem : SizesMemory) (tagValue : Int) : List TagInfo :=
  match mem.deref (tagToPointer tagValue) with
  | some t => t.array
  | none => []

/-- The tag slot the summation pass leaves in an object, read off the memory
before the pass. -/
def retaggedSlot (mem : SizesMemory) (o : HeapObject) : Int :=
  if o.tag = 0 then 0
  else if retainedEntries (entriesOf mem o.tag) = 0 then 0
  else pointerToTag Tag.HeldObjectTag

/-- The amount the summation pass adds to the total for an object, read off
the memory before the pass. -/
def retainedContribution (mem : SizesMemory) (o : HeapObject) : Int :=
  if o.tag = 0 then 0
  else o.size * (retainedEntries (entriesOf mem o.tag) : Int)

/-- The sum of the contributions of the objects of a heap. -/
def summedSizes (mem : SizesMemory) (heap : Heap) : Int :=
  (heap.map (retainedContribution mem)).sum

/-- The world after lines 67-68 of `estimateObjectSize` when `SetTag` is
carried out on a live object: the start record is allocated, its address is
written to the slot of the object, and the call is logged. -/
def taggedStart (w : World) (object : Nat) : World :=
  { heap := writeTag object
      (pointerToTag (Tag.create w.memory 0 (createState true true false false)).1) w.heap,
    memory := (Tag.create w.memory 0 (createState true true false false)).2,
    log := w.log ++ [Event.SetTag object
      (pointerToTag (Tag.create w.memory 0 (createState true true false false)).1)] }

/-- The part of `estimateObjectSize` before the summation pass (lines 67-74):
the error code with which the function returns there, or `JVMTI_ERROR_NONE`
when it goes on to line 76, and the world at that point. -/
def propagate (act : TimedAction) (w : World) (object : Nat) : jvmtiError × World :=
  let c := Tag.create w.memory 0 (createState true true false false)
  let s := SetTag act.jvmti w.heap object (pointerToTag c.1)
  let w1 : World :=
    { heap := s.2, memory := c.2, log := w.log ++ [Event.SetTag object (pointerToTag c.1)] }
  if !isOk s.1 then (s.1, w1)
  else if shouldStopExecution act 0 then (MEMORY_AGENT_TIMEOUT_ERROR, w1)
  else
    let t := tagHeap act w1 object
    if !isOk t.1 then t
    else if shouldStopExecution act 5 then (MEMORY_AGENT_TIMEOUT_ERROR, t.2)
    else (JVMTI_ERROR_NONE, t.2)

/-! ## Concrete inputs -/

/-- A release callback that records the tag values it is invoked on. -/
def recordRelease (tagValue : Int) (trace : List Int) : List Int :=
  trace ++ [tagValue]

/-- A heap in which two objects share the tag value 5. -/
def sharedTagHeap : Heap :=
  [⟨1, 0, 16, -1, 5⟩, ⟨2, 0, 24, -1, 5⟩, ⟨3, 0, 8, -1, 0⟩]

/-- Two live threads, 1 and 2, that carry the same name; thread 1 is the
calling thread. Every call succeeds. -/
def sameNameThreads : ThreadControl where
  GetAllThreads := (JVMTI_ERROR_NONE, [1, 2])
  GetCurrentThread := (JVMTI_ERROR_NONE, 1)
  currentThreadInfo := (JVMTI_ERROR_NONE, "worker")
  GetThreadInfo := fun _ _ => (JVMTI_ERROR_NONE, "worker")
  SuspendThread := fun _ _ => JVMTI_ERROR_NONE
  ResumeThread := fun _ => JVMTI_ERROR_NONE

/-- Two live threads with distinct names; thread 1 is the calling thread. The
call of `GetThreadInfo` on the current thread (line 287) is refused; every
other call succeeds. -/
def refusedInfoThreads : ThreadControl where
  GetAllThreads := (JVMTI_ERROR_NONE, [1, 2])
  GetCurrentThread := (JVMTI_ERROR_NONE, 1)
  currentThreadInfo := (JVMTI_ERROR_OTHER 15, "")
  GetThreadInfo := fun _ t => (JVMTI_ERROR_NONE, if t = 1 then "t1" else "t2")
  SuspendThread := fun _ _ => JVMTI_ERROR_NONE
  ResumeThread := fun _ => JVMTI_ERROR_NONE

/-- Three live threads with distinct names; thread 1 is the calling thread.
Every call succeeds. -/
def distinctNameThreads : ThreadControl where
  GetAllThreads := (JVMTI_ERROR_NONE, [1, 2, 3])
  GetCurrentThread := (JVMTI_ERROR_NONE, 1)
  currentThreadInfo := (JVMTI_ERROR_NONE, "t1")
  GetThreadInfo := fun _ t => (JVMTI_ERROR_NONE, if t = 1 then "t1" else if t = 2 then "t2" else "t3")
  SuspendThread := fun _ _ => JVMTI_ERROR_NONE
  ResumeThread := fun _ => JVMTI_ERROR_NONE

/-! ## Concrete inputs for the action -/

/-- A memory whose only record, at address 3, has two retained entries. -/
def twoEntryMemory : SizesMemory :=
  ⟨[(3, ⟨0, 1, [⟨createState false true false false⟩,
      ⟨createState false true false false⟩]⟩)], 1⟩

/-- An action on a heap without references: the service carries out every
call, the deadline is never reached and the traversals find nothing to tag. -/
def leafAction : TimedAction where
  jvmti := jvmtiEnv.allOk
  finishTime := 100
  clock := fun _ => 0
  getTagsWithNewInfo := fun w => (JVMTI_ERROR_NONE, w)
  visitReference := fun w => (JVMTI_ERROR_NONE, w)
  walkHeapFromObjects := fun _ w => (JVMTI_ERROR_NONE, w)

/-- The action `leafAction` with a deadline that has passed at the first
check. -/
def expiredAction : TimedAction :=
  { leafAction with finishTime := 0, clock := fun _ => 1 }

/-- A world of two untagged objects, 7 of size 16 and 8 of size 32, and an
empty engine memory. -/
def leafWorld : World :=
  ⟨[⟨7, 0, 16, -1, 0⟩, ⟨8, 0, 32, -1, 0⟩], ⟨[], 0⟩, []⟩

/-- The world `leafWorld` before the summation pass of `estimateObjectSize` on
object 7: only object 7 is tagged, with the start record at address 3. -/
def leafWorldTagged : World :=
  ⟨[⟨7, 0, 16, -1, 3⟩, ⟨8, 0, 32, -1, 0⟩],
    ⟨[(3, ⟨0, 1, [⟨createState true true false false⟩]⟩)], 1⟩,
    [Event.SetTag 7 3, Event.FollowReferences "find objects with new info",
      Event.GetObjectsWithTags [1], Event.GetTag 7, Event.FollowReferences "getTag heap"]⟩

/-- The world `leafWorld` after `estimateObjectSize` on object 7. -/
def leafWorldDone : World :=
  ⟨[⟨7, 0, 16, -1, 2⟩, ⟨8, 0, 32, -1, 0⟩], ⟨[], 0⟩,
    [Event.SetTag 7 3, Event.FollowReferences "find objects with new info",
      Event.GetObjectsWithTags [1], Event.GetTag 7, Event.FollowReferences "getTag heap",
      Event.IterateThroughHeap "calculate retained size", Event.GetObjectsWithTags [2]]⟩

/-! ## Helper lemmas for the heap walks -/

theorem heapFilterExcludes_untagged (o : HeapObject) :
    heapFilterExcludes JVMTI_HEAP_FILTER_UNTAGGED o = decide (o.tag = 0) := by
  simp [heapFilterExcludes, hasFlag, JVMTI_HEAP_FILTER_UNTAGGED, JVMTI_HEAP_FILTER_TAGGED,
    JVMTI_HEAP_FILTER_CLASS_TAGGED, JVMTI_HEAP_FILTER_CLASS_UNTAGGED]

theorem hasFlag_continue :
    hasFlag JVMTI_ITERATION_CONTINUE JVMTI_VISIT_ABORT = false := by
  simp [hasFlag, JVMTI_ITERATION_CONTINUE, JVMTI_VISIT_ABORT]

theorem iterateObjects_free {S : Type} (ignoredTags : List Int)
    (callback : Option (Int → S → S)) (heap : Heap) (s : S) :
    Id.run (iterateObjects JVMTI_HEAP_FILTER_UNTAGGED
      (freeObjectCallback ignoredTags callback) heap s)
      = (clearTags heap, applyReleases callback (releasedTags ignoredTags heap) s) := by
  induction heap generalizing s with
  | nil =>
    cases callback <;> simp [iterateObjects, clearTags, applyReleases, releasedTags, Id.run]
  | cons o rest ih =>
    obtain ⟨ob, ct, sz, ln, tg⟩ := o
    by_cases h0 : tg = 0
    · subst h0
      have := ih s
      simp only [Id.run] at this
      simp [iterateObjects, heapFilterExcludes_untagged, this, clearTags, releasedTags, Id.run]
    · cases callback with
      | none =>
        have := ih s
        simp only [Id.run] at this
        simp [iterateObjects, heapFilterExcludes_untagged, h0, freeObjectCallback,
          hasFlag_continue, this, clearTags, applyReleases, Id.run]
      | some release =>
        by_cases hi : tg ∈ ignoredTags
        · have := ih s
          simp only [Id.run] at this
          simp [iterateObjects, heapFilterExcludes_untagged, h0, freeObjectCallback,
            hasFlag_continue, this, clearTags, applyReleases, releasedTags, hi, Id.run]
        · have := ih (release tg s)
          simp only [Id.run] at this
          simp [iterateObjects, heapFilterExcludes_untagged, h0, freeObjectCallback,
            hasFlag_continue, this, clearTags, applyReleases, releasedTags, hi, Id.run]

theorem removeTagsFromHeap_ok {S : Type} (jvmti : jvmtiEnv) (heap : Heap)
    (ignoredTags : List Int) (callback : Option (Int → S → S)) (s : S)
    (hok : jvmti.IterateThroughHeap = JVMTI_ERROR_NONE) :
    removeTagsFromHeap jvmti heap ignoredTags callback s
      = (JVMTI_ERROR_NONE, clearTags heap,
          applyReleases callback (releasedTags ignoredTags heap) s) := by
  have h := iterateObjects_free ignoredTags callback heap s
  simp only [Id.run] at h
  simp [removeTagsFromHeap, IterateThroughHeap, hok, isOk, Id.run, h]

theorem removeTagsFromHeap_refused {S : Type} (jvmti : jvmtiEnv) (heap : Heap)
    (ignoredTags : List Int) (callback : Option (Int → S → S)) (s : S)
    (hno : jvmti.IterateThroughHeap ≠ JVMTI_ERROR_NONE) :
    removeTagsFromHeap jvmti heap ignoredTags callback s
      = (jvmti.IterateThroughHeap, heap, s) := by
  simp [removeTagsFromHeap, IterateThroughHeap, hno, isOk, Id.run]


theorem clearTags_tag (heap : Heap) : ∀ o ∈ clearTags heap, o.tag = 0 := by
  intro o ho
  simp only [clearTags, List.mem_map] at ho
  obtain ⟨a, _, rfl⟩ := ho
  rfl

theorem clearTags_of_untagged (heap : Heap) (h : ∀ o ∈ heap, o.tag = 0) :
    clearTags heap = heap := by
  induction heap with
  | nil => rfl
  | cons o rest ih =>
    have h0 : o.tag = 0 := h o (List.mem_cons_self _ _)
    have hr : clearTags rest = rest := ih (fun x hx => h x (List.mem_cons_of_mem _ hx))
    obtain ⟨ob, ct, sz, ln, tg⟩ := o
    simp only at h0
    subst h0
    simp only [clearTags, List.map_cons] at hr ⊢
    rw [hr]

theorem visitedObjects_untagged_nil (heap : Heap) (h : ∀ o ∈ heap, o.tag = 0) :
    visitedObjects JVMTI_HEAP_FILTER_UNTAGGED heap = [] := by
  simp only [visitedObjects, List.filter_eq_nil_iff]
  intro o ho
  simp [heapFilterExcludes_untagged, h o ho]

theorem releasedTags_count (ignoredTags : List Int) (heap : Heap) (t : Int) :
    (releasedTags ignoredTags heap).count t
      = if t ∈ ignoredTags ∨ t = 0 then 0 else heap.countP (fun o => decide (o.tag = t)) := by
  induction heap with
  | nil => simp [releasedTags]
  | cons o rest ih =>
    simp only [releasedTags] at ih ⊢
    by_cases h0 : o.tag = 0
    · rw [List.filter_cons_of_neg (by simpa using h0), ih]
      split
      · rfl
      · rename_i hn
        have : ¬ o.tag = t := fun h => hn (Or.inr (h ▸ h0))
        simp [List.countP_cons, this]
    · rw [List.filter_cons_of_pos (by simpa using h0), List.map_cons]
      by_cases hi : o.tag ∈ ignoredTags
      · rw [List.filter_cons_of_neg (by simpa using hi), ih]
        split
        · rfl
        · rename_i hn
          have : ¬ o.tag = t := fun h => hn (Or.inl (h ▸ hi))
          simp [List.countP_cons, this]
      · rw [List.filter_cons_of_pos (by simpa using hi), List.count_cons, ih]
        by_cases ht : o.tag = t
        · subst ht
          simp [hi, h0, List.countP_cons]
        · have ht2 : ¬ (o.tag == t) = true := by simpa using ht
          simp [ht, List.countP_cons]

theorem cleanHeap_fst (jvmti : jvmtiEnv) (w : World) :
    (cleanHeap jvmti w).1 = jvmti.IterateThroughHeap := by
  by_cases h : jvmti.IterateThroughHeap = JVMTI_ERROR_NONE
  · simp [cleanHeap, removeAllTagsFromHeap, removeTagsFromHeap_ok _ _ _ _ _ h, h]
  · simp [cleanHeap, removeAllTagsFromHeap, removeTagsFromHeap_refused _ _ _ _ _ h]

theorem cleanHeap_heap_ok (jvmti : jvmtiEnv) (w : World)
    (h : jvmti.IterateThroughHeap = JVMTI_ERROR_NONE) :
    (cleanHeap jvmti w).2.heap = clearTags w.heap := by
  simp [cleanHeap, removeAllTagsFromHeap, removeTagsFromHeap_ok _ _ _ _ _ h]

theorem cleanHeap_heap_refused (jvmti : jvmtiEnv) (w : World)
    (h : jvmti.IterateThroughHeap ≠ JVMTI_ERROR_NONE) :
    (cleanHeap jvmti w).2.heap = w.heap := by
  simp [cleanHeap, removeAllTagsFromHeap, removeTagsFromHeap_refused _ _ _ _ _ h]

theorem getObjectsAndTagsByTags_untagged (jvmti : jvmtiEnv) (heap : Heap) (tags : List Int)
    (result : List (Nat × Int)) (h : ∀ o ∈ heap, o.tag = 0) :
    (getObjectsAndTagsByTags jvmti heap tags result).2 = result := by
  unfold getObjectsAndTagsByTags collectObjectsByTags GetObjectsWithTags
  by_cases hv : jvmti.GetObjectsWithTags = JVMTI_ERROR_NONE
  · by_cases hz : (0 : Int) ∈ tags
    · simp [hv, hz, isOk]
    · have hf : heap.filter (fun o => decide (o.tag ∈ tags)) = [] := by
        simp only [List.filter_eq_nil_iff]
        intro o ho
        simp [h o ho, hz]
      simp [hv, hz, isOk, hf]
  · simp [hv, isOk]


theorem mem_toSet (tags : List Int) (a : Int) : a ∈ toSet tags ↔ a ∈ tags := by
  unfold toSet
  rw [List.mem_dedup]
  exact (List.perm_insertionSort (fun a b => a ≤ b) tags).mem_iff

theorem GetObjectsWithTags_untagged (jvmti : jvmtiEnv) (heap : Heap) (tags : List Int)
    (h : ∀ o ∈ heap, o.tag = 0) : (GetObjectsWithTags jvmti heap tags).2 = [] := by
  unfold GetObjectsWithTags
  by_cases hv : jvmti.GetObjectsWithTags = JVMTI_ERROR_NONE
  · by_cases hz : (0 : Int) ∈ tags
    · simp [hv, hz, isOk]
    · have hf : heap.filter (fun o => decide (o.tag ∈ tags)) = [] := by
        simp only [List.filter_eq_nil_iff]
        intro o ho
        simp [h o ho, hz]
      simp [hv, hz, isOk, hf]
  · simp [hv, isOk]

theorem getObjectsAndTagsByTags_code (jvmti : jvmtiEnv) (heap : Heap) (tags : List Int)
    (result : List (Nat × Int)) :
    (getObjectsAndTagsByTags jvmti heap tags result).1
      = if jvmti.GetObjectsWithTags = JVMTI_ERROR_NONE then
          (if (0 : Int) ∈ tags then JVMTI_ERROR_ILLEGAL_ARGUMENT else deallocateArrays jvmti)
        else jvmti.GetObjectsWithTags := by
  unfold getObjectsAndTagsByTags collectObjectsByTags GetObjectsWithTags
  by_cases hv : jvmti.GetObjectsWithTags = JVMTI_ERROR_NONE
  · by_cases hz : (0 : Int) ∈ tags
    · simp [hv, hz, isOk]
    · simp [hv, hz, isOk]
  · simp [hv, isOk]

theorem getObjectsByTags_result (jvmti : jvmtiEnv) (heap : Heap) (tags : List Int)
    (result : List Nat) (h : (getObjectsByTags jvmti heap tags result).1 = JVMTI_ERROR_NONE) :
    (getObjectsByTags jvmti heap tags result).2
      = result ++ (heap.filter (fun o => decide (o.tag ∈ tags))).map (fun o => o.object) := by
  unfold getObjectsByTags collectObjectsByTags GetObjectsWithTags at h ⊢
  by_cases hv : jvmti.GetObjectsWithTags = JVMTI_ERROR_NONE
  · by_cases hz : (0 : Int) ∈ tags
    · simp [hv, hz, isOk] at h
    · simp [hv, hz, isOk, List.map_map, Function.comp_def]
  · simp [hv, isOk] at h

/-! ## Helper lemmas for the thread suspender -/

theorem suspendSuccesses_append (xs ys : List ThreadCall) :
    suspendSuccesses (xs ++ ys) = suspendSuccesses xs ++ suspendSuccesses ys := by
  simp [suspendSuccesses, List.filterMap_append]

theorem suspendAttempts_append (xs ys : List ThreadCall) :
    suspendAttempts (xs ++ ys) = suspendAttempts xs ++ suspendAttempts ys := by
  simp [suspendAttempts, List.filterMap_append]

theorem suspendLoop_recorded (jvmti : ThreadControl) (currentName : Option String)
    (threads : List Nat) :
    ∀ (i : Nat) (st st' : ThreadSuspender),
      suspendLoop jvmti currentName i threads st = Except.ok st' →
      st.suspendedThreads = suspendSuccesses st.calls →
      st'.suspendedThreads = suspendSuccesses st'.calls := by
  induction threads with
  | nil =>
    intro i st st' hr h
    simp only [suspendLoop, Except.ok.injEq] at hr
    subst hr
    exact h
  | cons thread rest ih =>
    intro i st st' hr h
    simp only [suspendLoop] at hr
    split at hr
    · simp only [Except.ok.injEq] at hr
      subst hr
      exact h
    · split at hr
      · exact absurd hr (by simp)
      · split at hr
        · split at hr
          · rename_i hs
            apply ih _ _ _ hr
            simp [suspendSuccesses_append, h, suspendSuccesses, hs]
          · rename_i hs
            apply ih _ _ _ hr
            simp [suspendSuccesses_append, h, suspendSuccesses, hs]
        · exact ih _ _ _ hr h

theorem suspendLoop_attempts (jvmti : ThreadControl) (currentName : String)
    (name : Nat → String)
    (hinfo : ∀ i t, jvmti.GetThreadInfo i t = (JVMTI_ERROR_NONE, name t))
    (threads : List Nat) :
    ∀ (i : Nat) (st : ThreadSuspender),
      ∃ st', suspendLoop jvmti (some currentName) i threads st = Except.ok st'
        ∧ suspendAttempts st'.calls
          = suspendAttempts st.calls
            ++ threads.filter (fun t => decide (name t ≠ currentName)) := by
  induction threads with
  | nil => intro i st; exact ⟨st, rfl, by simp⟩
  | cons thread rest ih =>
    intro i st
    simp only [suspendLoop, hinfo, isOk]
    by_cases hn : name thread = currentName
    · obtain ⟨st', h1, h2⟩ := ih (i + 1) st
      refine ⟨st', ?_, ?_⟩
      · simpa [hn] using h1
      · rw [h2]
        simp [hn]
    · have hone : ∀ a, suspendAttempts [ThreadCall.SuspendThread thread a] = [thread] :=
        fun a => rfl
      have hf : List.filter (fun t => decide (name t ≠ currentName)) (thread :: rest)
          = thread :: List.filter (fun t => decide (name t ≠ currentName)) rest :=
        List.filter_cons_of_pos (by simpa using hn)
      by_cases hs : jvmti.SuspendThread i thread = JVMTI_ERROR_NONE
      · obtain ⟨st', h1, h2⟩ := ih (i + 1)
          { suspendedThreads := st.suspendedThreads ++ [thread],
            calls := st.calls ++ [ThreadCall.SuspendThread thread JVMTI_ERROR_NONE] }
        refine ⟨st', ?_, ?_⟩
        · simpa [hn, hs] using h1
        · rw [h2, suspendAttempts_append, hone, hf]
          simp
      · obtain ⟨st', h1, h2⟩ := ih (i + 1)
          { st with calls := st.calls
              ++ [ThreadCall.SuspendThread thread (jvmti.SuspendThread i thread)] }
        refine ⟨st', ?_, ?_⟩
        · simpa [hn, hs] using h1
        · rw [h2, suspendAttempts_append, hone, hf]
          simp

theorem construct_recorded (jvmti : ThreadControl) (st : ThreadSuspender)
    (h : ThreadSuspender.construct jvmti = Except.ok st) :
    st.suspendedThreads = suspendSuccesses st.calls := by
  unfold ThreadSuspender.construct at h
  simp only at h
  split_ifs at h
  · simp only [Except.ok.injEq] at h
    subst h
    rfl
  · simp only [Except.ok.injEq] at h
    subst h
    rfl
  · exact suspendLoop_recorded _ _ _ _ _ _ h rfl
  · exact suspendLoop_recorded _ _ _ _ _ _ h rfl

theorem resumeCalls_destruct (jvmti : ThreadControl) (st : ThreadSuspender) :
    resumeCalls (ThreadSuspender.destruct jvmti st) = st.suspendedThreads := by
  simp only [ThreadSuspender.destruct, resumeCalls]
  induction st.suspendedThreads with
  | nil => rfl
  | cons t rest ih => simp [List.filterMap_cons, ih]

theorem suspendAttempts_destruct (jvmti : ThreadControl) (st : ThreadSuspender) :
    suspendAttempts (ThreadSuspender.destruct jvmti st) = [] := by
  simp only [ThreadSuspender.destruct, suspendAttempts]
  induction st.suspendedThreads with
  | nil => rfl
  | cons t rest ih => simp [List.filterMap_cons, ih]

/-! ## Helper lemmas for the summation pass -/

theorem jlongWrap_add_wrap (a b : Int) : jlongWrap (jlongWrap a + b) = jlongWrap (a + b) := by
  unfold jlongWrap
  omega

theorem jlongWrap_of_inJlong (x : Int) (h : inJlong x) : jlongWrap x = x := by
  unfold inJlong at h
  unfold jlongWrap
  omega

theorem countEntries_eq (size : Int) (array : List TagInfo) :
    ∀ (slot total : Int),
      countEntries size array slot (jlongWrap total)
        = (if retainedEntries array = 0 then slot else pointerToTag Tag.HeldObjectTag,
            jlongWrap (total + size * (retainedEntries array : Int))) := by
  induction array with
  | nil => intro slot total; simp [countEntries, retainedEntries]
  | cons info rest ih =>
    intro slot total
    have step : countEntries size (info :: rest) slot (jlongWrap total)
        = countEntries size rest
            (if isRetained info.state then pointerToTag Tag.HeldObjectTag else slot)
            (if isRetained info.state then jlongWrap (total + size) else jlongWrap total) := by
      simp only [countEntries, List.foldl_cons]
      by_cases hr : isRetained info.state = true
      · simp [hr, jlongAdd, jlongWrap_add_wrap]
      · simp [hr]
    rw [step]
    by_cases hr : isRetained info.state = true
    · simp only [hr, if_true]
      rw [ih]
      have hc : retainedEntries (info :: rest) = retainedEntries rest + 1 := by
        simp [retainedEntries, List.countP_cons, hr]
      rw [hc]
      have : total + size + size * (retainedEntries rest : Int)
          = total + size * ((retainedEntries rest + 1 : Nat) : Int) := by
        push_cast; ring
      rw [this]
      by_cases h0 : retainedEntries rest = 0 <;> simp [h0]
    · have hc : retainedEntries (info :: rest) = retainedEntries rest := by
        simp [retainedEntries, List.countP_cons, hr]
      simp only [hr, hc]
      exact ih slot total


theorem except_bind_ok {ε α β : Type} (x : Except ε α) (f : α → Except ε β) (b : β) :
    (x >>= f) = Except.ok b ↔ ∃ a, x = Except.ok a ∧ f a = Except.ok b := by
  cases x <;> simp [bind, Except.bind]

theorem lookupRecord_filter (p q : Int) (rs : List (Int × Tag)) :
    lookupRecord q (rs.filter (fun r => decide (r.1 ≠ p)))
      = if q = p then none else lookupRecord q rs := by
  induction rs with
  | nil => simp [lookupRecord]
  | cons r rest ih =>
    by_cases hr : r.1 = p
    · rw [List.filter_cons_of_neg (by simpa using hr), ih]
      by_cases hq : q = p
      · simp [hq]
      · have : ¬ r.1 = q := fun h => hq (h ▸ hr)
        simp [hq, lookupRecord, this]
    · rw [List.filter_cons_of_pos (by simpa using hr)]
      simp only [lookupRecord, ih]
      by_cases hq : r.1 = q
      · have : ¬ q = p := fun h => hr (hq ▸ h)
        simp [hq, this]
      · simp [hq]

theorem lookupRecord_map (p q : Int) (rs : List (Int × Tag)) :
    lookupRecord q (rs.map (fun r =>
        if r.1 = p then (r.1, { r.2 with refCount := r.2.refCount - 1 }) else r))
      = (lookupRecord q rs).map (fun t =>
          if q = p then { t with refCount := t.refCount - 1 } else t) := by
  induction rs with
  | nil => simp [lookupRecord]
  | cons r rest ih =>
    simp only [List.map_cons, lookupRecord, ih]
    by_cases hr : r.1 = p
    · by_cases hq : r.1 = q
      · have : q = p := hq ▸ hr
        simp [hr, hq, this]
      · have hpq : ¬ p = q := fun h => hq (hr.trans h)
        simp [hr, hpq]
    · by_cases hq : r.1 = q
      · have : ¬ q = p := fun h => hr (hq ▸ h)
        simp [hr, hq, this]
      · simp [hr, hq]


theorem RecordsWithin.refl (rs : List (Int × Tag)) : RecordsWithin rs rs :=
  fun _ t h => ⟨t, h, rfl⟩

theorem RecordsWithin.trans {a b c : List (Int × Tag)} (hab : RecordsWithin a b)
    (hbc : RecordsWithin b c) : RecordsWithin a c := by
  intro p t h
  obtain ⟨t1, h1, e1⟩ := hab p t h
  obtain ⟨t2, h2, e2⟩ := hbc p t1 h1
  exact ⟨t2, h2, e2.trans e1⟩

theorem unref_within (mem mem' : SizesMemory) (p : Int) (h : Tag.unref mem p = some mem') :
    RecordsWithin mem'.records mem.records := by
  unfold Tag.unref at h
  split at h
  · exact absurd h (by simp)
  · split at h
    · cases h
      exact RecordsWithin.refl _
    · split at h
      · exact absurd h (by simp)
      · split at h
        · cases h
          intro q t hq
          simp only [lookupRecord_filter] at hq
          split at hq
          · exact absurd hq (by simp)
          · exact ⟨t, hq, rfl⟩
        · cases h
          intro q t hq
          simp only [lookupRecord_map] at hq
          cases hl : lookupRecord q mem.records with
          | none => simp [hl] at hq
          | some t0 =>
            refine ⟨t0, rfl, ?_⟩
            simp only [hl, Option.map_some', Option.some.injEq] at hq
            rw [← hq]
            split <;> rfl

theorem entriesOf_within (cur init : SizesMemory)
    (hw : RecordsWithin cur.records init.records) (tagValue : Int) (t : Tag)
    (h : cur.deref (tagToPointer tagValue) = some t) :
    entriesOf init tagValue = t.array := by
  unfold SizesMemory.deref at h
  unfold entriesOf SizesMemory.deref
  split at h
  · exact absurd h (by simp)
  · rename_i h0
    split at h
    · rename_i hm
      cases h
      simp [h0, hm]
    · rename_i hm
      obtain ⟨t0, h1, e1⟩ := hw _ _ h
      simp [h0, hm, h1, e1]

theorem countSizeAndRetagHeldObjects_ok (init cur mem' : SizesMemory)
    (hw : RecordsWithin cur.records init.records) (o : HeapObject) (total total' : Int)
    (ret : Nat) (slot : Int) (ht : o.tag ≠ 0)
    (h : countSizeAndRetagHeldObjects o.classTag o.size o.tag o.length (cur, jlongWrap total)
      = Except.ok (ret, slot, (mem', total'))) :
    ret = JVMTI_ITERATION_CONTINUE ∧ slot = retaggedSlot init o
      ∧ total' = jlongWrap (total + retainedContribution init o)
      ∧ RecordsWithin mem'.records init.records := by
  unfold countSizeAndRetagHeldObjects at h
  simp only [ht, if_false] at h
  cases hd : cur.deref (tagToPointer o.tag) with
  | none => simp [hd] at h
  | some t =>
    have he := entriesOf_within cur init hw o.tag t hd
    cases hu : Tag.unref cur (tagToPointer o.tag) with
    | none => simp [hd, hu] at h
    | some m =>
      simp only [hd, hu, countEntries_eq, Except.ok.injEq, Prod.mk.injEq] at h
      obtain ⟨h1, h2, h3, h4⟩ := h
      subst h3
      refine ⟨h1.symm, ?_, ?_, (unref_within _ _ _ hu).trans hw⟩
      · rw [← h2]
        simp [retaggedSlot, ht, he]
      · rw [← h4]
        simp [retainedContribution, ht, he]

theorem iterateObjects_count (init : SizesMemory) (heap : Heap) :
    ∀ (cur mem' : SizesMemory) (total total' : Int) (heap' : Heap),
      RecordsWithin cur.records init.records →
      iterateObjects JVMTI_HEAP_FILTER_UNTAGGED countSizeAndRetagHeldObjects heap
          (cur, jlongWrap total) = Except.ok (heap', (mem', total')) →
      heap' = heap.map (fun o => { o with tag := retaggedSlot init o })
        ∧ total' = jlongWrap (total + summedSizes init heap)
        ∧ RecordsWithin mem'.records init.records := by
  induction heap with
  | nil =>
    intro cur mem' total total' heap' hw h
    simp only [iterateObjects, pure, Except.pure, Except.ok.injEq, Prod.mk.injEq] at h
    obtain ⟨h1, h2, h3⟩ := h
    subst h1 h2 h3
    simp [summedSizes, hw]
  | cons o rest ih =>
    intro cur mem' total total' heap' hw h
    by_cases h0 : o.tag = 0
    · simp only [iterateObjects, heapFilterExcludes_untagged, h0, decide_True, if_true] at h
      rw [except_bind_ok] at h
      obtain ⟨r, hr, hp⟩ := h
      obtain ⟨rh, rm, rt⟩ := r
      obtain ⟨e1, e2, e3⟩ := ih cur rm total rt rh hw hr
      simp only [pure, Except.pure, Except.ok.injEq, Prod.mk.injEq] at hp
      obtain ⟨p1, p2, p3⟩ := hp
      subst p1 p2 p3
      refine ⟨?_, ?_, e3⟩
      · rw [List.map_cons, ← e1]
        have : retaggedSlot init o = o.tag := by simp [retaggedSlot, h0]
        rw [this]
      · rw [e2]
        simp [summedSizes, retainedContribution, h0]
    · simp only [iterateObjects, heapFilterExcludes_untagged, h0, decide_False,
        Bool.false_eq_true, if_false] at h
      rw [except_bind_ok] at h
      obtain ⟨c, hc, hp⟩ := h
      obtain ⟨ret, slot, cm, ct⟩ := c
      obtain ⟨c1, c2, c3, c4⟩ := countSizeAndRetagHeldObjects_ok init cur cm hw o total ct
        ret slot h0 hc
      subst c1
      simp only [hasFlag_continue, Bool.false_eq_true, if_false] at hp
      rw [except_bind_ok] at hp
      obtain ⟨r, hr, hq⟩ := hp
      obtain ⟨rh, rm, rt⟩ := r
      rw [c3] at hr
      obtain ⟨e1, e2, e3⟩ := ih cm rm _ rt rh c4 hr
      simp only [pure, Except.pure, Except.ok.injEq, Prod.mk.injEq] at hq
      obtain ⟨p1, p2, p3⟩ := hq
      subst p1 p2 p3
      refine ⟨?_, ?_, e3⟩
      · rw [List.map_cons, ← e1, c2]
      · rw [e2]
        simp [summedSizes, add_assoc]


theorem estimateObjectSize_early (act : TimedAction) (w : World) (object : Nat)
    (rs : Int) (held : List Nat) (hp : (propagate act w object).1 ≠ JVMTI_ERROR_NONE) :
    estimateObjectSize act w object rs held
      = Except.ok ((propagate act w object).1, (propagate act w object).2, rs, held) := by
  unfold propagate at hp ⊢
  unfold estimateObjectSize
  simp only at hp ⊢
  split_ifs at hp ⊢ <;> first | rfl | exact absurd rfl hp

theorem estimateObjectSize_late (act : TimedAction) (w : World) (object : Nat)
    (rs : Int) (held : List Nat) (hp : (propagate act w object).1 = JVMTI_ERROR_NONE) :
    estimateObjectSize act w object rs held
      = match IterateThroughHeap act.jvmti JVMTI_HEAP_FILTER_UNTAGGED
            countSizeAndRetagHeldObjects (propagate act w object).2.heap
            ((propagate act w object).2.memory, 0) with
        | .error f => .error f
        | .ok r =>
          let w3 : World :=
            { heap := r.2.1, memory := r.2.2.1,
              log := (propagate act w object).2.log
                ++ [Event.IterateThroughHeap "calculate retained size"] }
          if !isOk r.1 then .ok (r.1, w3, r.2.2.2, held)
          else if shouldStopExecution act 6 then
            .ok (MEMORY_AGENT_TIMEOUT_ERROR, w3, r.2.2.2, held)
          else if r.2.2.1.sizesTagBalance ≠ 0 then .error Fault.memoryLeakFound
          else
            let g := getObjectsByTags act.jvmti w3.heap [pointerToTag Tag.HeldObjectTag] held
            .ok (g.1,
              { w3 with log := w3.log
                  ++ [Event.GetObjectsWithTags [pointerToTag Tag.HeldObjectTag]] },
              r.2.2.2, g.2) := by
  unfold propagate at hp ⊢
  unfold estimateObjectSize
  simp only at hp ⊢
  split_ifs at hp ⊢ <;> first | rfl | simp_all [isOk]


theorem countEntries_none (size : Int) (array : List TagInfo) (slot total : Int)
    (h : retainedEntries array = 0) : countEntries size array slot total = (slot, total) := by
  induction array with
  | nil => rfl
  | cons info rest ih =>
    have hi : isRetained info.state = false := by
      by_contra hc
      simp [retainedEntries, List.countP_cons, hc] at h
    have hrest : retainedEntries rest = 0 := by
      simpa [retainedEntries, List.countP_cons, hi] using h
    have := ih hrest
    simp only [countEntries, List.foldl_cons, hi] at this ⊢
    simpa using this

theorem countEntries_one (size : Int) (array : List TagInfo) (slot total : Int)
    (h : retainedEntries array = 1) :
    countEntries size array slot total
      = (pointerToTag Tag.HeldObjectTag, jlongAdd total size) := by
  induction array with
  | nil => simp [retainedEntries] at h
  | cons info rest ih =>
    by_cases hi : isRetained info.state = true
    · have hrest : retainedEntries rest = 0 := by
        simpa [retainedEntries, List.countP_cons, hi] using h
      have := countEntries_none size rest (pointerToTag Tag.HeldObjectTag)
        (jlongAdd total size) hrest
      simp only [countEntries, List.foldl_cons, hi, if_true] at this ⊢
      exact this
    · have hrest : retainedEntries rest = 1 := by
        simpa [retainedEntries, List.countP_cons, hi] using h
      have := ih hrest
      simp only [countEntries, List.foldl_cons, hi] at this ⊢
      simpa using this

theorem unref_of_deref (mem : SizesMemory) (p : Int) (t : Tag) (h : mem.deref p = some t) :
    ∃ mem', Tag.unref mem p = some mem' := by
  unfold SizesMemory.deref at h
  unfold Tag.unref
  split at h
  · exact absurd h (by simp)
  · rename_i h0
    split at h
    · rename_i hm
      exact ⟨mem, by simp [h0, hm]⟩
    · rename_i hm
      simp only [h0, hm, if_false, h]
      split
      · exact ⟨_, rfl⟩
      · exact ⟨_, rfl⟩


/-! ## Further helper lemmas -/

theorem writeTag_mem (object : Nat) (tag : Int) (heap : Heap)
    (h : ∃ o ∈ heap, o.object = object) :
    ∃ o ∈ writeTag object tag heap, o.object = object := by
  induction heap with
  | nil => simp at h
  | cons x rest ih =>
    by_cases hx : x.object = object
    · exact ⟨{ x with tag := tag }, by simp [writeTag, hx], hx⟩
    · obtain ⟨o, ho, he⟩ := h
      have hor : o ∈ rest := by
        rcases List.mem_cons.mp ho with h1 | h1
        · exact absurd (h1 ▸ he) hx
        · exact h1
      obtain ⟨o', ho', he'⟩ := ih ⟨o, hor, he⟩
      exact ⟨o', by simp [writeTag, hx, ho'], he'⟩

theorem clearTags_mem (object : Nat) (heap : Heap) (h : ∃ o ∈ heap, o.object = object) :
    ∃ o ∈ clearTags heap, o.object = object ∧ o.tag = 0 := by
  obtain ⟨o, ho, he⟩ := h
  exact ⟨{ o with tag := 0 }, List.mem_map.mpr ⟨o, ho, rfl⟩, he, rfl⟩

theorem SetTag_live (jvmti : jvmtiEnv) (heap : Heap) (object : Nat) (tag : Int)
    (hset : jvmti.SetTag = JVMTI_ERROR_NONE) (hlive : ∃ o ∈ heap, o.object = object) :
    SetTag jvmti heap object tag = (JVMTI_ERROR_NONE, writeTag object tag heap) := by
  have : heap.any (fun o => decide (o.object = object)) = true := by
    obtain ⟨o, ho, he⟩ := hlive
    exact List.any_eq_true.mpr ⟨o, ho, by simpa using he⟩
  simp [SetTag, hset, isOk, this]

theorem retainedEntries_ne_zero (array : List TagInfo) :
    retainedEntries array ≠ 0 ↔ ∃ info ∈ array, isRetained info.state = true := by
  simp [retainedEntries, List.countP_eq_zero]

theorem retaggedSlot_held (mem : SizesMemory) (o : HeapObject) :
    retaggedSlot mem o = pointerToTag Tag.HeldObjectTag
      ↔ o.tag ≠ 0 ∧ ∃ t, mem.deref (tagToPointer o.tag) = some t
          ∧ ∃ info ∈ t.array, isRetained info.state = true := by
  have hne : (0 : Int) ≠ pointerToTag Tag.HeldObjectTag := by decide
  unfold retaggedSlot
  by_cases h0 : o.tag = 0
  · simp [h0, hne]
  · simp only [h0, if_false, ne_eq, not_false_eq_true, true_and]
    unfold entriesOf
    cases hd : mem.deref (tagToPointer o.tag) with
    | none => simp [retainedEntries, hne]
    | some t =>
      by_cases hr : retainedEntries t.array = 0
      · have hn := (retainedEntries_ne_zero t.array).not.mp (by simpa using hr)
        constructor
        · intro h
          rw [if_pos hr] at h
          exact absurd h hne
        · rintro ⟨t', ht', hex⟩
          cases ht'
          exact absurd hex hn
      · have hex := (retainedEntries_ne_zero t.array).mp hr
        constructor
        · intro _
          exact ⟨t, rfl, hex⟩
        · intro _
          rw [if_neg hr]

theorem retaggedSlot_zero_or_held (mem : SizesMemory) (o : HeapObject) :
    retaggedSlot mem o = 0 ∨ retaggedSlot mem o = pointerToTag Tag.HeldObjectTag := by
  unfold retaggedSlot
  split
  · exact Or.inl rfl
  · split
    · exact Or.inl rfl
    · exact Or.inr rfl

theorem summedSizes_tagged (mem : SizesMemory) (heap : Heap) :
    summedSizes mem heap
      = ((heap.filter (fun o => decide (o.tag ≠ 0))).map
          (fun o => o.size * (retainedEntries (entriesOf mem o.tag) : Int))).sum := by
  induction heap with
  | nil => rfl
  | cons o rest ih =>
    unfold summedSizes at ih ⊢
    by_cases h0 : o.tag = 0
    · rw [List.filter_cons_of_neg (by simpa using h0), ← ih]
      simp [retainedContribution, h0]
    · rw [List.filter_cons_of_pos (by simpa using h0), List.map_cons, List.sum_cons,
        List.map_cons, List.sum_cons, ← ih]
      simp [retainedContribution, h0]


theorem countSizeAndRetagHeldObjects_one_entry (mem : SizesMemory)
    (classTag size tagValue length total : Int) (t : Tag) (h0 : tagValue ≠ 0)
    (hd : mem.deref (tagToPointer tagValue) = some t)
    (h1 : retainedEntries t.array = 1) :
    ∃ mem', Tag.unref mem (tagToPointer tagValue) = some mem'
      ∧ countSizeAndRetagHeldObjects classTag size tagValue length (mem, total)
        = Except.ok (JVMTI_ITERATION_CONTINUE, pointerToTag Tag.HeldObjectTag,
            (mem', jlongAdd total size)) := by
  obtain ⟨mem', hu⟩ := unref_of_deref mem _ t hd
  refine ⟨mem', hu, ?_⟩
  unfold countSizeAndRetagHeldObjects
  simp only [h0, if_false, hd, hu, countEntries_one size t.array 0 total h1]

/-! ## The claims about utils.cpp -/

/-- C3, as stated, fails: it is not the case that `removeTagsFromHeap` invokes
the release callback exactly once for each cleared tag value outside the
keep-set. On a heap in which two objects share the tag value 5 the callback is
invoked on 5 twice. -/
theorem removeTagsFromHeap_not_once_per_value :
    ¬ (∀ (heap : Heap) (ignoredTags : List Int) (t : Int),
        t ∉ ignoredTags → (∃ o ∈ heap, o.tag = t ∧ t ≠ 0) →
        (removeTagsFromHeap jvmtiEnv.allOk heap ignoredTags (some recordRelease) []).2.2.count t
          = 1) := by
  intro h
  have h5 := h sharedTagHeap [] 5 (by simp) ⟨⟨1, 0, 16, -1, 5⟩, by simp [sharedTagHeap], rfl, by decide⟩
  rw [removeTagsFromHeap_ok _ _ _ _ _ rfl] at h5
  revert h5
  decide

/-- C3, amended: when the heap iteration is carried out, `removeTagsFromHeap`
invokes a non-null release callback once for every tagged object whose tag
value is not in the keep-set, in heap order; a tag value outside the keep-set
is therefore released as many times as there are objects that carry it. -/
theorem removeTagsFromHeap_releases_per_object {S : Type} (jvmti : jvmtiEnv) (heap : Heap)
    (ignoredTags : List Int) (release : Int → S → S) (s : S)
    (hok : jvmti.IterateThroughHeap = JVMTI_ERROR_NONE) :
    (removeTagsFromHeap jvmti heap ignoredTags (some release) s).2.2
        = (releasedTags ignoredTags heap).foldl (fun acc t => release t acc) s
      ∧ (removeTagsFromHeap jvmti heap ignoredTags (some recordRelease) []).2.2
        = releasedTags ignoredTags heap
      ∧ ∀ t, (releasedTags ignoredTags heap).count t
          = if t ∈ ignoredTags ∨ t = 0 then 0
            else heap.countP (fun o => decide (o.tag = t)) := by
  refine ⟨?_, ?_, releasedTags_count ignoredTags heap⟩
  · rw [removeTagsFromHeap_ok _ _ _ _ _ hok]
    rfl
  · rw [removeTagsFromHeap_ok _ _ _ _ _ hok]
    simp only [applyReleases]
    generalize releasedTags ignoredTags heap = l
    have : ∀ (acc : List Int), List.foldl (fun acc t => recordRelease t acc) acc l = acc ++ l := by
      induction l with
      | nil => intro acc; simp
      | cons x xs ih =>
        intro acc
        rw [List.foldl_cons, ih]
        simp [recordRelease]
    simpa using this []

/-- Witness of C3, amended, on the heap with a shared tag value. -/
theorem removeTagsFromHeap_releases_per_object_witness :
    jvmtiEnv.allOk.IterateThroughHeap = JVMTI_ERROR_NONE
      ∧ (removeTagsFromHeap jvmtiEnv.allOk sharedTagHeap [] (some recordRelease) []).2.2
        = [5, 5] :=
  ⟨rfl, (removeTagsFromHeap_releases_per_object jvmtiEnv.allOk sharedTagHeap []
    recordRelease [] rfl).2.1.trans (by decide)⟩

/-- C5: `cleanHeap` is idempotent. A successful `cleanHeap` keeps every object
and the engine's memory and sets every tag slot to zero; a second `cleanHeap`,
whatever the service answers to it, finds no tagged object to visit and leaves
the heap as the first one left it. -/
theorem cleanHeap_idempotent (jvmti jvmti2 : jvmtiEnv) (w : World)
    (h : (cleanHeap jvmti w).1 = JVMTI_ERROR_NONE) :
    (cleanHeap jvmti w).2.heap = w.heap.map (fun o => { o with tag := 0 })
      ∧ (cleanHeap jvmti w).2.memory = w.memory
      ∧ (∀ o ∈ (cleanHeap jvmti w).2.heap, o.tag = 0)
      ∧ visitedObjects JVMTI_HEAP_FILTER_UNTAGGED (cleanHeap jvmti w).2.heap = []
      ∧ (cleanHeap jvmti2 (cleanHeap jvmti w).2).2.heap = (cleanHeap jvmti w).2.heap
      ∧ (cleanHeap jvmti2 (cleanHeap jvmti w).2).2.memory = w.memory
      ∧ (cleanHeap jvmti2 (cleanHeap jvmti w).2).1 = jvmti2.IterateThroughHeap := by
  rw [cleanHeap_fst] at h
  have hz : ∀ o ∈ (cleanHeap jvmti w).2.heap, o.tag = 0 := by
    rw [cleanHeap_heap_ok _ _ h]
    exact clearTags_tag _
  refine ⟨cleanHeap_heap_ok _ _ h, rfl, hz, visitedObjects_untagged_nil _ hz, ?_, rfl,
    cleanHeap_fst _ _⟩
  by_cases h2 : jvmti2.IterateThroughHeap = JVMTI_ERROR_NONE
  · rw [cleanHeap_heap_ok _ _ h2]
    exact clearTags_of_untagged _ hz
  · exact cleanHeap_heap_refused _ _ h2

/-- Witness of C5 on the heap with a shared tag value: the first `cleanHeap`
zeroes the three slots and the second one changes nothing. -/
theorem cleanHeap_idempotent_witness :
    (cleanHeap jvmtiEnv.allOk ⟨sharedTagHeap, ⟨[], 0⟩, []⟩).1 = JVMTI_ERROR_NONE
      ∧ (cleanHeap jvmtiEnv.allOk ⟨sharedTagHeap, ⟨[], 0⟩, []⟩).2.heap
        = [⟨1, 0, 16, -1, 0⟩, ⟨2, 0, 24, -1, 0⟩, ⟨3, 0, 8, -1, 0⟩]
      ∧ (cleanHeap jvmtiEnv.allOk
          (cleanHeap jvmtiEnv.allOk ⟨sharedTagHeap, ⟨[], 0⟩, []⟩).2).2.heap
        = (cleanHeap jvmtiEnv.allOk ⟨sharedTagHeap, ⟨[], 0⟩, []⟩).2.heap :=
  ⟨cleanHeap_fst _ _,
    (cleanHeap_idempotent jvmtiEnv.allOk jvmtiEnv.allOk ⟨sharedTagHeap, ⟨[], 0⟩, []⟩
      (cleanHeap_fst _ _)).1.trans (by decide),
    (cleanHeap_idempotent jvmtiEnv.allOk jvmtiEnv.allOk ⟨sharedTagHeap, ⟨[], 0⟩, []⟩
      (cleanHeap_fst _ _)).2.2.2.2.1⟩

/-- C10: when the heap iteration is carried out, `removeTagsFromHeap` returns
the heap with the same objects and a zero in every tag slot, the objects whose
tag value is in the keep-set included; the keep-set only decides on which tag
values the release callback is invoked. `cleanHeapAndGetObjectsByTags`
therefore purges the whole heap, then asks the service for the objects that
carry one of the requested tag values and gets none: `result` is returned as it
was, and the error code is the one of the lookup. -/
theorem removeTagsFromHeap_clears_kept_tags {S : Type} (jvmti : jvmtiEnv) (heap : Heap)
    (tags : List Int) (result : List (Nat × Int)) (callback : Option (Int → S → S)) (s : S)
    (hok : jvmti.IterateThroughHeap = JVMTI_ERROR_NONE) :
    removeTagsFromHeap jvmti heap tags callback s
        = (JVMTI_ERROR_NONE, heap.map (fun o => { o with tag := 0 }),
            applyReleases callback (releasedTags tags heap) s)
      ∧ cleanHeapAndGetObjectsByTags jvmti heap tags result callback s
        = ((if jvmti.GetObjectsWithTags = JVMTI_ERROR_NONE then
              (if (0 : Int) ∈ tags then JVMTI_ERROR_ILLEGAL_ARGUMENT
               else deallocateArrays jvmti)
            else jvmti.GetObjectsWithTags),
            heap.map (fun o => { o with tag := 0 }),
            applyReleases callback (releasedTags (toSet tags) heap) s,
            toSet tags, result)
      ∧ (GetObjectsWithTags jvmti (heap.map (fun o => { o with tag := 0 })) (toSet tags)).2 = []
      ∧ (∀ t, t ∈ toSet tags ↔ t ∈ tags)
      ∧ (∀ o ∈ (cleanHeapAndGetObjectsByTags jvmti heap tags result callback s).2.1,
          o.tag = 0) := by
  have hr : ∀ (ignored : List Int),
      removeTagsFromHeap jvmti heap ignored callback s
        = (JVMTI_ERROR_NONE, heap.map (fun o => { o with tag := 0 }),
            applyReleases callback (releasedTags ignored heap) s) :=
    fun ignored => removeTagsFromHeap_ok _ _ _ _ _ hok
  have hc : cleanHeapAndGetObjectsByTags jvmti heap tags result callback s
      = ((if jvmti.GetObjectsWithTags = JVMTI_ERROR_NONE then
            (if (0 : Int) ∈ tags then JVMTI_ERROR_ILLEGAL_ARGUMENT
             else deallocateArrays jvmti)
          else jvmti.GetObjectsWithTags),
          heap.map (fun o => { o with tag := 0 }),
          applyReleases callback (releasedTags (toSet tags) heap) s,
          toSet tags, result) := by
    have h2 := getObjectsAndTagsByTags_untagged jvmti (clearTags heap) (toSet tags) result
      (clearTags_tag heap)
    have h1 := getObjectsAndTagsByTags_code jvmti (clearTags heap) (toSet tags) result
    simp only [mem_toSet, clearTags] at h1 h2
    simp only [cleanHeapAndGetObjectsByTags, hr, h1, h2]
  refine ⟨hr tags, hc, GetObjectsWithTags_untagged _ _ _ (clearTags_tag heap),
    mem_toSet tags, ?_⟩
  rw [hc]
  exact clearTags_tag heap

/-- Witness of C10: the tag value 5 is requested and two objects carry it, yet
after the purge all three objects are untagged and no object is found. -/
theorem removeTagsFromHeap_clears_kept_tags_witness :
    jvmtiEnv.allOk.IterateThroughHeap = JVMTI_ERROR_NONE
      ∧ cleanHeapAndGetObjectsByTags jvmtiEnv.allOk sharedTagHeap [5, 5] []
          (some recordRelease) []
        = (JVMTI_ERROR_NONE, [⟨1, 0, 16, -1, 0⟩, ⟨2, 0, 24, -1, 0⟩, ⟨3, 0, 8, -1, 0⟩],
            [], [5], []) :=
  ⟨rfl, (removeTagsFromHeap_clears_kept_tags jvmtiEnv.allOk sharedTagHeap [5, 5] []
    (some recordRelease) [] rfl).2.1.trans (by decide)⟩

/-- C7: the code breaks the claim. When `GetThreadInfo` on the current thread
is refused, the constructor does not return early: the answer is never assigned
to `err`, the loop is entered and the first comparison of names reads the info
record of the current thread, which was never written. On every run in which
the constructor does return, the recorded threads are the threads on which
`SuspendThread` answered with success, in the order of the calls, and the
destructor calls `ResumeThread` on the recorded threads, once for each record,
and makes no other call. -/
theorem ThreadSuspender_reads_unwritten_name :
    ThreadSuspender.construct refusedInfoThreads = Except.error Fault.uninitializedRead
      ∧ ∀ (jvmti : ThreadControl) (st : ThreadSuspender),
          ThreadSuspender.construct jvmti = Except.ok st →
          st.suspendedThreads = suspendSuccesses st.calls
            ∧ resumeCalls (ThreadSuspender.destruct jvmti st) = st.suspendedThreads
            ∧ suspendAttempts (ThreadSuspender.destruct jvmti st) = [] := by
  refine ⟨rfl, ?_⟩
  intro jvmti st h
  exact ⟨construct_recorded jvmti st h, resumeCalls_destruct _ _,
    suspendAttempts_destruct _ _⟩

/-- C8, as stated, fails: with two live threads of the same name, one of them
the calling thread, the constructor attempts to suspend no thread, although
the other thread is not the calling thread. -/
theorem ThreadSuspender_skips_same_name :
    ThreadSuspender.construct sameNameThreads = Except.ok ⟨[], []⟩
      ∧ suspendAttempts (⟨[], []⟩ : ThreadSuspender).calls = []
      ∧ sameNameThreads.GetAllThreads.2.filter
          (fun t => decide (t ≠ sameNameThreads.GetCurrentThread.2)) = [2] := by
  refine ⟨rfl, rfl, by decide⟩

/-- C8, amended: when every thread-enumeration and thread-info call succeeds,
the constructor returns and has attempted to suspend exactly the threads whose
name differs from the name of the calling thread, in enumeration order. This is
every thread but the calling thread when no other thread carries the name of
the calling thread. -/
theorem ThreadSuspender_attempts_by_name (jvmti : ThreadControl) (threads : List Nat)
    (current : Nat) (name : Nat → String)
    (hall : jvmti.GetAllThreads = (JVMTI_ERROR_NONE, threads))
    (hcur : jvmti.GetCurrentThread = (JVMTI_ERROR_NONE, current))
    (hcinfo : jvmti.currentThreadInfo = (JVMTI_ERROR_NONE, name current))
    (hinfo : ∀ i t, jvmti.GetThreadInfo i t = (JVMTI_ERROR_NONE, name t)) :
    ∃ st, ThreadSuspender.construct jvmti = Except.ok st
      ∧ suspendAttempts st.calls
        = threads.filter (fun t => decide (name t ≠ name current))
      ∧ ((∀ t ∈ threads, name t = name current → t = current) →
          suspendAttempts st.calls = threads.filter (fun t => decide (t ≠ current))) := by
  obtain ⟨st, h1, h2⟩ := suspendLoop_attempts jvmti (name current) name hinfo threads 0
    ⟨[], []⟩
  have h3 : suspendAttempts st.calls
      = threads.filter (fun t => decide (name t ≠ name current)) := by
    rw [h2]
    simp [suspendAttempts]
  refine ⟨st, ?_, h3, fun hinj => ?_⟩
  · unfold ThreadSuspender.construct
    simp only [hall, hcur, hcinfo, isOk, decide_True, Bool.not_true, Bool.false_eq_true,
      if_false, if_true]
    exact h1
  · rw [h3]
    apply List.filter_congr
    intro t ht
    by_cases hc : t = current
    · simp [hc]
    · have : ¬ name t = name current := fun hn => hc (hinj t ht hn)
      simp [hc, this]

/-- Witness of C8, amended, on three threads with distinct names. -/
theorem ThreadSuspender_attempts_by_name_witness :
    ∃ st, ThreadSuspender.construct distinctNameThreads = Except.ok st
      ∧ suspendAttempts st.calls
        = [1, 2, 3].filter (fun t => decide
            ((if t = 1 then "t1" else if t = 2 then "t2" else "t3") ≠ "t1")) := by
  obtain ⟨st, h1, h2, _⟩ := ThreadSuspender_attempts_by_name distinctNameThreads [1, 2, 3] 1
    (fun t => if t = 1 then "t1" else if t = 2 then "t2" else "t3") rfl rfl rfl
    (fun _ _ => rfl)
  exact ⟨st, h1, h2⟩

theorem estimateObjectSize_ok_inv (act : TimedAction) (w w' : World) (object : Nat)
    (rs rs' : Int) (held held' : List Nat)
    (h : estimateObjectSize act w object rs held
      = Except.ok (JVMTI_ERROR_NONE, w', rs', held')) :
    (propagate act w object).1 = JVMTI_ERROR_NONE
      ∧ (∃ mem', iterateObjects JVMTI_HEAP_FILTER_UNTAGGED countSizeAndRetagHeldObjects
          (propagate act w object).2.heap ((propagate act w object).2.memory, 0)
            = Except.ok (w'.heap, (mem', rs')))
      ∧ getObjectsByTags act.jvmti w'.heap [pointerToTag Tag.HeldObjectTag] held
          = (JVMTI_ERROR_NONE, held') := by
  by_cases hp : (propagate act w object).1 = JVMTI_ERROR_NONE
  · refine ⟨hp, ?_⟩
    rw [estimateObjectSize_late act w object rs held hp] at h
    generalize (propagate act w object).2 = before at h ⊢
    unfold IterateThroughHeap at h
    by_cases hv : act.jvmti.IterateThroughHeap = JVMTI_ERROR_NONE
    · simp only [hv, isOk, decide_True, if_true] at h
      cases hit : iterateObjects JVMTI_HEAP_FILTER_UNTAGGED countSizeAndRetagHeldObjects
          before.heap (before.memory, 0) with
      | error f => simp [hit, bind, Except.bind] at h
      | ok r =>
        obtain ⟨heap', mem', total'⟩ := r
        simp only [hit, bind, Except.bind, pure, Except.pure, decide_True, Bool.not_true,
          Bool.false_eq_true, if_false] at h
        by_cases h6 : shouldStopExecution act 6 = true
        · simp [h6] at h
        by_cases hb : mem'.sizesTagBalance = 0
        swap
        · simp [h6, hb] at h
        simp only [h6, hb, Bool.false_eq_true, if_false, ne_eq, not_true_eq_false,
          Except.ok.injEq, Prod.mk.injEq] at h
        obtain ⟨hg1, hw, hrs, hg2⟩ := h
        subst hw hrs
        exact ⟨⟨mem', rfl⟩, Prod.ext hg1 hg2⟩
    · simp only [hv, isOk, decide_False, Bool.false_eq_true, if_false, pure, Except.pure,
        Bool.not_false, if_true, Except.ok.injEq, Prod.mk.injEq] at h
      exact h.1.elim
  · rw [estimateObjectSize_early act w object rs held hp] at h
    simp only [Except.ok.injEq, Prod.mk.injEq] at h
    exact absurd h.1 hp

theorem map_retagged_untagged (mem : SizesMemory) (l : Heap) (h : ∀ x ∈ l, x.tag = 0) :
    l.map (fun o => { o with tag := retaggedSlot mem o }) = l := by
  induction l with
  | nil => rfl
  | cons x rest ih =>
    have h0 : x.tag = 0 := h x (List.mem_cons_self _ _)
    have hr := ih (fun y hy => h y (List.mem_cons_of_mem _ hy))
    obtain ⟨ob, ct, sz, ln, tg⟩ := x
    simp only at h0
    subst h0
    rw [List.map_cons, hr]
    simp [retaggedSlot]

theorem filter_tagged_only (pre post : Heap) (o : HeapObject)
    (hpre : ∀ x ∈ pre, x.tag = 0) (hpost : ∀ x ∈ post, x.tag = 0) (ho : o.tag ≠ 0) :
    (pre ++ o :: post).filter (fun x => decide (x.tag ≠ 0)) = [o] := by
  have h1 : pre.filter (fun x => decide (x.tag ≠ 0)) = [] := by
    simp only [List.filter_eq_nil_iff]
    intro x hx
    simp [hpre x hx]
  have h2 : post.filter (fun x => decide (x.tag ≠ 0)) = [] := by
    simp only [List.filter_eq_nil_iff]
    intro x hx
    simp [hpost x hx]
  rw [List.filter_append, h1, List.filter_cons_of_pos (by simpa using ho), h2]
  rfl

theorem filter_held_only (pre post : Heap) (o : HeapObject)
    (hpre : ∀ x ∈ pre, x.tag = 0) (hpost : ∀ x ∈ post, x.tag = 0) :
    (pre ++ { o with tag := pointerToTag Tag.HeldObjectTag } :: post).filter
        (fun x => decide (x.tag ∈ [pointerToTag Tag.HeldObjectTag]))
      = [{ o with tag := pointerToTag Tag.HeldObjectTag }] := by
  have hne : ¬ (0 : Int) = pointerToTag Tag.HeldObjectTag := by decide
  have h1 : pre.filter (fun x => decide (x.tag ∈ [pointerToTag Tag.HeldObjectTag])) = [] := by
    simp only [List.filter_eq_nil_iff]
    intro x hx
    simp [hpre x hx, hne]
  have h2 : post.filter (fun x => decide (x.tag ∈ [pointerToTag Tag.HeldObjectTag])) = [] := by
    simp only [List.filter_eq_nil_iff]
    intro x hx
    simp [hpost x hx, hne]
  rw [List.filter_append, h1, List.filter_cons_of_pos (by simp), h2]
  rfl

/-! ## The claims about the retained size action -/

/-- C1, as stated, fails: for an object of size 16 whose record has two
retained entries, one invocation of `countSizeAndRetagHeldObjects` raises the
total from 0 to 32, not to 16. -/
theorem countSizeAndRetagHeldObjects_counts_twice :
    countSizeAndRetagHeldObjects 0 16 3 (-1) (twoEntryMemory, 0)
        = Except.ok (JVMTI_ITERATION_CONTINUE, pointerToTag Tag.HeldObjectTag,
            ((⟨[], 0⟩ : SizesMemory), 32))
      ∧ jlongAdd 0 16 ≠ 32 := by
  constructor
  · rfl
  · decide

/-- C1, amended: for every object whose slot holds a record with exactly one
retained entry, whatever the number of its other entries, one invocation of
`countSizeAndRetagHeldObjects` returns, marks the slot as held, releases the
record and raises the running total by exactly the shallow size of the
object. -/
theorem countSizeAndRetagHeldObjects_counts_once (mem : SizesMemory)
    (classTag size tagValue length total : Int) (t : Tag) (h0 : tagValue ≠ 0)
    (hd : mem.deref (tagToPointer tagValue) = some t)
    (h1 : retainedEntries t.array = 1) :
    ∃ mem', Tag.unref mem (tagToPointer tagValue) = some mem'
      ∧ countSizeAndRetagHeldObjects classTag size tagValue length (mem, total)
        = Except.ok (JVMTI_ITERATION_CONTINUE, pointerToTag Tag.HeldObjectTag,
            (mem', jlongAdd total size)) :=
  countSizeAndRetagHeldObjects_one_entry mem classTag size tagValue length total t h0 hd h1

/-- Witness of C1, amended: a record with one retained entry among three. -/
theorem countSizeAndRetagHeldObjects_counts_once_witness :
    ∃ mem', Tag.unref
          ⟨[(3, ⟨0, 1, [⟨createState false false true false⟩,
            ⟨createState false true false false⟩,
            ⟨createState false false false true⟩]⟩)], 1⟩ (tagToPointer 3) = some mem'
      ∧ countSizeAndRetagHeldObjects 0 16 3 (-1)
          (⟨[(3, ⟨0, 1, [⟨createState false false true false⟩,
            ⟨createState false true false false⟩,
            ⟨createState false false false true⟩]⟩)], 1⟩, 100)
        = Except.ok (JVMTI_ITERATION_CONTINUE, pointerToTag Tag.HeldObjectTag,
            (mem', jlongAdd 100 16)) :=
  countSizeAndRetagHeldObjects_counts_once _ 0 16 3 (-1) 100
    ⟨0, 1, [⟨createState false false true false⟩, ⟨createState false true false false⟩,
      ⟨createState false false false true⟩]⟩ (by decide) rfl rfl

/-- C9: after the summation pass of a successful `estimateObjectSize` every tag
slot is zero or the held marker. The slot of an object is the held marker
exactly when the object was tagged before the pass and its record had a
retained entry; an object that was untagged stays untagged, and the total is
summed over the tagged objects only. -/
theorem estimateObjectSize_slots_after_summation (act : TimedAction) (w w' : World)
    (object : Nat) (rs rs' : Int) (held held' : List Nat)
    (h : estimateObjectSize act w object rs held
      = Except.ok (JVMTI_ERROR_NONE, w', rs', held')) :
    (∀ o' ∈ w'.heap, o'.tag = 0 ∨ o'.tag = pointerToTag Tag.HeldObjectTag)
      ∧ List.Forall₂
          (fun o o' =>
            o'.object = o.object ∧ o'.size = o.size
              ∧ (o'.tag = pointerToTag Tag.HeldObjectTag
                  ↔ o.tag ≠ 0 ∧ ∃ t,
                      (propagate act w object).2.memory.deref (tagToPointer o.tag) = some t
                        ∧ ∃ info ∈ t.array, isRetained info.state = true)
              ∧ (o.tag = 0 → o'.tag = 0))
          (propagate act w object).2.heap w'.heap
      ∧ rs' = jlongWrap
          ((((propagate act w object).2.heap.filter (fun o => decide (o.tag ≠ 0))).map
            (fun o => o.size
              * (retainedEntries (entriesOf (propagate act w object).2.memory o.tag) : Int))).sum)
      := by
  by_cases hp : (propagate act w object).1 = JVMTI_ERROR_NONE
  · rw [estimateObjectSize_late act w object rs held hp] at h
    generalize (propagate act w object).2 = before at h ⊢
    unfold IterateThroughHeap at h
    by_cases hv : act.jvmti.IterateThroughHeap = JVMTI_ERROR_NONE
    · simp only [hv, isOk, decide_True, if_true] at h
      cases hit : iterateObjects JVMTI_HEAP_FILTER_UNTAGGED countSizeAndRetagHeldObjects
          before.heap (before.memory, 0) with
      | error f => simp [hit, bind, Except.bind] at h
      | ok r =>
        obtain ⟨heap', mem', total'⟩ := r
        have hit0 : iterateObjects JVMTI_HEAP_FILTER_UNTAGGED countSizeAndRetagHeldObjects
            before.heap (before.memory, jlongWrap 0) = Except.ok (heap', (mem', total')) := hit
        obtain ⟨e1, e2, _⟩ := iterateObjects_count before.memory before.heap before.memory
          mem' 0 total' heap' (RecordsWithin.refl _) hit0
        simp only [hit, bind, Except.bind, pure, Except.pure, decide_True, Bool.not_true,
          Bool.false_eq_true, if_false] at h
        by_cases h6 : shouldStopExecution act 6 = true
        · simp [h6] at h
        by_cases hb : mem'.sizesTagBalance = 0
        swap
        · simp [h6, hb] at h
        simp only [h6, hb, Bool.false_eq_true, if_false, ne_eq, not_true_eq_false,
          Except.ok.injEq, Prod.mk.injEq] at h
        obtain ⟨_, hw, hrs, _⟩ := h
        subst hw hrs
        simp only
        refine ⟨?_, ?_, ?_⟩
        · intro o' ho'
          rw [e1] at ho'
          obtain ⟨o, _, rfl⟩ := List.mem_map.mp ho'
          exact retaggedSlot_zero_or_held _ _
        · rw [e1]
          rw [List.forall₂_map_right_iff]
          apply List.forall₂_same.mpr
          intro o _
          refine ⟨rfl, rfl, retaggedSlot_held _ _, ?_⟩
          intro hz
          simp [retaggedSlot, hz]
        · rw [e2, zero_add, summedSizes_tagged]
    · simp only [hv, isOk, decide_False, Bool.false_eq_true, if_false, pure, Except.pure,
        Bool.not_false, if_true, Except.ok.injEq, Prod.mk.injEq] at h
      exact h.1.elim
  · rw [estimateObjectSize_early act w object rs held hp] at h
    simp only [Except.ok.injEq, Prod.mk.injEq] at h
    exact absurd h.1 hp


/-- Witness of C9 on the run of `leafAction` on object 7. -/
theorem estimateObjectSize_slots_after_summation_witness :
    estimateObjectSize leafAction leafWorld 7 0 []
        = Except.ok (JVMTI_ERROR_NONE, leafWorldDone, 16, [7])
      ∧ ∀ o' ∈ leafWorldDone.heap, o'.tag = 0 ∨ o'.tag = pointerToTag Tag.HeldObjectTag :=
  ⟨rfl, (estimateObjectSize_slots_after_summation leafAction leafWorld leafWorldDone 7 0 16
    [] [7] rfl).1⟩

/-- C2, as stated, fails: the start object 7 has no outgoing references and
after propagation it is the only tagged object, yet the successful
`estimateObjectSize` returns the held objects `[7]`, not the empty list. -/
theorem estimateObjectSize_leaf_holds_itself :
    propagate leafAction leafWorld 7 = (JVMTI_ERROR_NONE, leafWorldTagged)
      ∧ estimateObjectSize leafAction leafWorld 7 0 []
        = Except.ok (JVMTI_ERROR_NONE, leafWorldDone, 16, [7])
      ∧ ([7] : List Nat) ≠ [] := by
  refine ⟨rfl, rfl, by decide⟩

/-- C2, amended: for a start object `o` that, after propagation, is the only
tagged object and whose slot holds its start record, a successful
`estimateObjectSize` returns `retainedSize` equal to the shallow size of `o` and
`heldObjects` equal to `[o]`: the summation pass marks the start object itself
as held, and it is the only object resolved into `heldObjects`. -/
theorem estimateObjectSize_leaf (act : TimedAction) (w w' : World) (pre post : Heap)
    (o : HeapObject) (t : Tag) (rs rs' : Int) (held' : List Nat)
    (h : estimateObjectSize act w o.object rs []
      = Except.ok (JVMTI_ERROR_NONE, w', rs', held'))
    (hheap : (propagate act w o.object).2.heap = pre ++ o :: post)
    (hpre : ∀ x ∈ pre, x.tag = 0) (hpost : ∀ x ∈ post, x.tag = 0)
    (htag : o.tag ≠ 0)
    (hrec : (propagate act w o.object).2.memory.deref (tagToPointer o.tag) = some t)
    (harr : t.array = [⟨createState true true false false⟩])
    (hsize : inJlong o.size) :
    rs' = o.size ∧ held' = [o.object]
      ∧ w'.heap = pre ++ { o with tag := pointerToTag Tag.HeldObjectTag } :: post := by
  obtain ⟨_, ⟨mem', hit⟩, hg⟩ := estimateObjectSize_ok_inv act w w' o.object rs rs' [] held' h
  have hit0 : iterateObjects JVMTI_HEAP_FILTER_UNTAGGED countSizeAndRetagHeldObjects
      (propagate act w o.object).2.heap
      ((propagate act w o.object).2.memory, jlongWrap 0) = Except.ok (w'.heap, (mem', rs')) :=
    hit
  obtain ⟨e1, e2, _⟩ := iterateObjects_count (propagate act w o.object).2.memory
    (propagate act w o.object).2.heap (propagate act w o.object).2.memory mem' 0 rs' w'.heap
    (RecordsWithin.refl _) hit0
  have hent : entriesOf (propagate act w o.object).2.memory o.tag = t.array := by
    unfold entriesOf
    rw [hrec]
  have hone : retainedEntries (entriesOf (propagate act w o.object).2.memory o.tag) = 1 := by
    rw [hent, harr]
    rfl
  have hslot : retaggedSlot (propagate act w o.object).2.memory o
      = pointerToTag Tag.HeldObjectTag := by
    simp [retaggedSlot, htag, hone]
  have hw : w'.heap = pre ++ { o with tag := pointerToTag Tag.HeldObjectTag } :: post := by
    rw [e1, hheap, List.map_append, List.map_cons, map_retagged_untagged _ _ hpre,
      map_retagged_untagged _ _ hpost, hslot]
  refine ⟨?_, ?_, hw⟩
  · rw [e2, summedSizes_tagged, hheap, filter_tagged_only pre post o hpre hpost htag]
    simp only [List.map_cons, List.map_nil, List.sum_cons, List.sum_nil, hone]
    rw [show (0 : Int) + (o.size * ((1 : Nat) : Int) + 0) = o.size by push_cast; ring]
    exact jlongWrap_of_inJlong _ hsize
  · have hres := getObjectsByTags_result act.jvmti w'.heap [pointerToTag Tag.HeldObjectTag] []
      (by rw [hg])
    rw [hg, hw, filter_held_only pre post o hpre hpost] at hres
    simpa using hres

/-- Witness of C2, amended, on the run of `leafAction` on object 7. -/
theorem estimateObjectSize_leaf_witness :
    estimateObjectSize leafAction leafWorld 7 0 []
        = Except.ok (JVMTI_ERROR_NONE, leafWorldDone, 16, [7])
      ∧ (propagate leafAction leafWorld 7).2.heap = [⟨7, 0, 16, -1, 3⟩, ⟨8, 0, 32, -1, 0⟩]
      ∧ (16 : Int) = (⟨7, 0, 16, -1, 3⟩ : HeapObject).size
      ∧ ([7] : List Nat) = [(⟨7, 0, 16, -1, 3⟩ : HeapObject).object] :=
  ⟨rfl, rfl,
    (estimateObjectSize_leaf leafAction leafWorld leafWorldDone [] [⟨8, 0, 32, -1, 0⟩]
      ⟨7, 0, 16, -1, 3⟩ ⟨0, 1, [⟨createState true true false false⟩]⟩ 0 16 [7]
      (by rfl) (by rfl) (by simp) (by simp) (by decide) (by rfl) rfl (by decide)).1,
    (estimateObjectSize_leaf leafAction leafWorld leafWorldDone [] [⟨8, 0, 32, -1, 0⟩]
      ⟨7, 0, 16, -1, 3⟩ ⟨0, 1, [⟨createState true true false false⟩]⟩ 0 16 [7]
      (by rfl) (by rfl) (by simp) (by simp) (by decide) (by rfl) rfl (by decide)).2.1⟩

/-- C4: the code breaks the claim. With a deadline that has already passed,
`estimateObjectSize` returns the timeout code without assigning `retainedSize`,
and `executeOperation` still returns a result array, built from the
indeterminate value of `retainedSize` and an empty list of held objects. -/
theorem executeOperation_returns_result_on_timeout (uninitialized : Int) :
    (estimateObjectSize expiredAction leafWorld 7 uninitialized []).toOption.map
        (fun r => (r.1, r.2.2.1, r.2.2.2))
        = some (MEMORY_AGENT_TIMEOUT_ERROR, uninitialized, [])
      ∧ (executeOperation expiredAction leafWorld 7 uninitialized).toOption.map
        (fun r => (r.1, r.2.2))
        = some (some (createResultObject uninitialized []),
            ["ERROR: JVMTI: Could not estimate object size"]) := by
  constructor <;> rfl

/-- C6: for a live start object, a service that carries out `SetTag` and a
deadline that has passed at the first check, `estimateObjectSize` returns the
timeout code at once, with `retainedSize` and `heldObjects` as they were; the
only service call it has made is the `SetTag` of the start object, so no
reference traversal and no heap iteration has run; and a `cleanHeap` that the
service carries out afterwards succeeds and leaves a zero in every tag slot,
the slot of the start object included. -/
theorem estimateObjectSize_expired (act : TimedAction) (w : World) (object : Nat)
    (rs : Int) (held : List Nat) (jvmti : jvmtiEnv)
    (hlive : ∃ o ∈ w.heap, o.object = object)
    (hset : act.jvmti.SetTag = JVMTI_ERROR_NONE)
    (hdead : act.finishTime < act.clock 0)
    (hclean : jvmti.IterateThroughHeap = JVMTI_ERROR_NONE) :
    estimateObjectSize act w object rs held
        = Except.ok (MEMORY_AGENT_TIMEOUT_ERROR, taggedStart w object, rs, held)
      ∧ (taggedStart w object).log
        = w.log ++ [Event.SetTag object
            (pointerToTag (Tag.create w.memory 0 (createState true true false false)).1)]
      ∧ (cleanHeap jvmti (taggedStart w object)).1 = JVMTI_ERROR_NONE
      ∧ (∀ o ∈ (cleanHeap jvmti (taggedStart w object)).2.heap, o.tag = 0)
      ∧ ∃ o ∈ (cleanHeap jvmti (taggedStart w object)).2.heap,
          o.object = object ∧ o.tag = 0 := by
  have hstop : shouldStopExecution act 0 = true := by simp [shouldStopExecution, hdead]
  have hp : propagate act w object = (MEMORY_AGENT_TIMEOUT_ERROR, taggedStart w object) := by
    unfold propagate taggedStart
    simp only [SetTag_live act.jvmti w.heap object _ hset hlive, isOk, decide_True,
      Bool.not_true, Bool.false_eq_true, if_false, hstop, if_true]
  refine ⟨?_, rfl, ?_, ?_, ?_⟩
  · rw [estimateObjectSize_early act w object rs held
      (by rw [hp]; exact fun h => jvmtiError.noConfusion h), hp]
  · rw [cleanHeap_fst, hclean]
  · rw [cleanHeap_heap_ok _ _ hclean]
    exact clearTags_tag _
  · rw [cleanHeap_heap_ok _ _ hclean]
    exact clearTags_mem object _ (writeTag_mem object _ w.heap hlive)

/-- Witness of C6 on the run of `expiredAction` on object 7. -/
theorem estimateObjectSize_expired_witness :
    (∃ o ∈ leafWorld.heap, o.object = 7)
      ∧ expiredAction.finishTime < expiredAction.clock 0
      ∧ estimateObjectSize expiredAction leafWorld 7 0 []
          = Except.ok (MEMORY_AGENT_TIMEOUT_ERROR, taggedStart leafWorld 7, 0, [])
      ∧ (taggedStart leafWorld 7).heap = [⟨7, 0, 16, -1, 3⟩, ⟨8, 0, 32, -1, 0⟩]
      ∧ (cleanHeap jvmtiEnv.allOk (taggedStart leafWorld 7)).2.heap = leafWorld.heap :=
  ⟨⟨⟨7, 0, 16, -1, 0⟩, by simp [leafWorld], rfl⟩, by decide,
    (estimateObjectSize_expired expiredAction leafWorld 7 0 [] jvmtiEnv.allOk
      ⟨⟨7, 0, 16, -1, 0⟩, by simp [leafWorld], rfl⟩ rfl (by decide) rfl).1,
    rfl, rfl⟩

end MemoryAgent
